import Mathlib

/-!
# ThinLTO planning in `src/rustllvm/PassWrapper.cpp`

A shallow embedding of the ThinLTO data-preparation code of `PassWrapper.cpp`
(`getFirstDefinitionForLinker`, `addPreservedGUID`, `LLVMRustCreateThinLTOData`,
`LLVMRustPrepareThinLTOImport`, `LLVMRustParseBitcodeForThinLTO`), of
`LLVMRustWriteOutputFile`, `LLVMRustSetLLVMOptions` and
`RustAssemblyAnnotationWriter::CallDemangle`, and theorems about them.

Conventions of the embedding:

* a `GlobalValue::GUID` is a natural number;
* `DenseSet<GlobalValue::GUID>` is a `Finset` of GUIDs;
* `StringMap<V>`, `DenseMap<K, V>` and the `std::map` inside
  `ModuleSummaryIndex` are association lists read by first match and written
  by replacing the binding of the key;
* a `std::unique_ptr<GlobalValueSummary>` is the summary record together with
  the address of the owned object (`addr`): two pointers are equal when the
  addresses are;
* the recursion of `addPreservedGUID` is bounded by a fuel argument, and
  `none` stands for a run that has not returned within the fuel.
-/

namespace PassWrapper

/-! ## Data model -/

/-- A `GlobalValue::GUID`. -/
abbrev GUID := Nat

/-- A `DenseSet<GlobalValue::GUID>`. -/
abbrev GUIDSet := Finset GUID

/-- Association-list model of `StringMap<V>`, `DenseMap<K, V>` and `std::map<K, V>`. -/
abbrev AssocMap (κ : Type) (α : Type) := List (κ × α)

/-- The `find` of a map: the value bound to `k`, when there is one. -/
def AssocMap.find {κ α : Type} [DecidableEq κ] : AssocMap κ α → κ → Option α
  | [], _ => none
  | (k', v) :: rest, k => if k' = k then some v else AssocMap.find rest k

/-- The assignment `m[k] = v` of a map: the binding of `k` is created or replaced. -/
def AssocMap.set {κ α : Type} [DecidableEq κ] (m : AssocMap κ α) (k : κ) (v : α) :
    AssocMap κ α :=
  (k, v) :: m.filter (fun e => decide (e.1 ≠ k))

/-- Modelled from the spec: the linkage kinds of a summary (§3, "linkage kind");
the enumeration `GlobalValue::LinkageTypes` is declared in LLVM, not under `src/`. -/
inductive LinkageTypes
  | ExternalLinkage
  | AvailableExternallyLinkage
  | LinkOnceAnyLinkage
  | LinkOnceODRLinkage
  | WeakAnyLinkage
  | WeakODRLinkage
  | AppendingLinkage
  | InternalLinkage
  | PrivateLinkage
  | ExternalWeakLinkage
  | CommonLinkage
  deriving DecidableEq, Repr

/-- Modelled from the spec: `GlobalValue::isAvailableExternallyLinkage`, the test for
the "available-externally" linkage kind (§4.4); declared in LLVM, not under `src/`. -/
def isAvailableExternallyLinkage (Linkage : LinkageTypes) : Bool :=
  decide (Linkage = LinkageTypes.AvailableExternallyLinkage)

/-- Modelled from the spec: `GlobalValue::isWeakForLinker`, the test for the
"weak-for-linker" linkage kinds (§4.4, weak/linkonce-style definitions); declared in
LLVM, not under `src/`. -/
def isWeakForLinker (Linkage : LinkageTypes) : Bool :=
  decide (Linkage = LinkageTypes.WeakAnyLinkage) ||
  decide (Linkage = LinkageTypes.WeakODRLinkage) ||
  decide (Linkage = LinkageTypes.LinkOnceAnyLinkage) ||
  decide (Linkage = LinkageTypes.LinkOnceODRLinkage) ||
  decide (Linkage = LinkageTypes.CommonLinkage) ||
  decide (Linkage = LinkageTypes.ExternalWeakLinkage)

/-- A `GlobalValue` as far as this file reads it: `getGUID()`. -/
structure GlobalValue where
  getGUID : GUID
  deriving DecidableEq, Repr

/-- A `ValueInfo`: either a GUID (`isGUID()`) or a pointer to a `GlobalValue`. -/
inductive ValueInfo
  | VI_GUID (Id : GUID)
  | VI_Value (GV : GlobalValue)
  deriving DecidableEq, Repr

/-- The part of a `FunctionSummary` that other summaries do not have. -/
structure FunctionSummary where
  /-- The edges of `calls()`: callee and call-site information (hotness). -/
  CallGraphEdgeList : List (ValueInfo × Nat)
  /-- The GUIDs of `type_tests()`. -/
  TypeTests : List GUID
  deriving DecidableEq, Repr

/-- The `SummaryKind` of a summary, with the function part for `FunctionKind`. -/
inductive SummaryKind
  | AliasKind
  | FunctionKind (FS : FunctionSummary)
  | GlobalVarKind
  deriving DecidableEq, Repr

/-- The object owned by one `std::unique_ptr<GlobalValueSummary>` of a summary list. -/
structure GlobalValueSummary where
  /-- The address of the object, which is what a `GlobalValueSummary *` compares. -/
  addr : Nat
  /-- The result of `modulePath()`. -/
  ModulePath : String
  /-- The result of `linkage()`. -/
  linkage : LinkageTypes
  /-- The result of `refs()`. -/
  RefEdgeList : List ValueInfo
  /-- The dynamic kind, which `isa<FunctionSummary>` tests. -/
  Kind : SummaryKind
  deriving DecidableEq, Repr

/-- A `GlobalValueSummaryList`. -/
abbrev GlobalValueSummaryList := List GlobalValueSummary

/-- A `ModuleSummaryIndex`: the map from GUID to summary list. -/
structure ModuleSummaryIndex where
  GlobalValueMap : AssocMap GUID GlobalValueSummaryList
  deriving DecidableEq, Repr

/-- The lookup `Index.findGlobalValueSummaryList(GUID)`; `none` is `Index.end()`. -/
def ModuleSummaryIndex.findGlobalValueSummaryList (Index : ModuleSummaryIndex)
    (G : GUID) : Option GlobalValueSummaryList :=
  AssocMap.find Index.GlobalValueMap G

/-! ## `addPreservedGUID` -/

/-- The GUID that `addPreservedGUID` takes from a `ValueInfo`:
`Ref.getGUID()` when `Ref.isGUID()`, else `Ref.getValue()->getGUID()`. -/
def ValueInfo.targetGUID : ValueInfo → GUID
  | ValueInfo.VI_GUID Id => Id
  | ValueInfo.VI_Value GV => GV.getGUID

/-- The function `addPreservedGUID(Index, Preserved, GUID)`; the result is the value of
`Preserved` at return. The first argument after the index bounds the depth of the
recursion. -/
def addPreservedGUID (Index : ModuleSummaryIndex) : Nat → GUIDSet → GUID → Option GUIDSet
  | 0, _, _ => none
  | fuel + 1, Preserved, G =>
    if G ∈ Preserved then
      some Preserved
    else
      let Preserved := insert G Preserved
      match Index.findGlobalValueSummaryList G with
      | none => some Preserved
      | some SummaryList =>
        SummaryList.foldlM (fun Preserved Summary => do
          let Preserved ← Summary.RefEdgeList.foldlM
            (fun Preserved Ref => addPreservedGUID Index fuel Preserved Ref.targetGUID)
            Preserved
          match Summary.Kind with
          | SummaryKind.FunctionKind FS => do
            let Preserved ← FS.CallGraphEdgeList.foldlM
              (fun Preserved Call =>
                addPreservedGUID Index fuel Preserved Call.1.targetGUID)
              Preserved
            FS.TypeTests.foldlM
              (fun Preserved GUID => addPreservedGUID Index fuel Preserved GUID)
              Preserved
          | _ => pure Preserved) Preserved

/-- The loop of `LLVMRustCreateThinLTOData` over `preserved_symbols`: it calls
`addPreservedGUID` on `GlobalValue::getGUID(preserved_symbols[i])` for each `i` in
order. `getGUID` is LLVM's hash of a symbol name. -/
def preservedSymbolsLoop (getGUID : String → GUID) (Index : ModuleSummaryIndex)
    (fuel : Nat) (preserved_symbols : List String) (GUIDPreservedSymbols : GUIDSet) :
    Option GUIDSet :=
  preserved_symbols.foldlM
    (fun Preserved symbol => addPreservedGUID Index fuel Preserved (getGUID symbol))
    GUIDPreservedSymbols

/-! ## The example scenario of the spec -/

/-- A function summary with the given address, module, linkage and callees. -/
def exampleFunction (addr : Nat) (M : String) (L : LinkageTypes) (callees : List GUID) :
    GlobalValueSummary :=
  { addr := addr, ModulePath := M, linkage := L, RefEdgeList := [],
    Kind := SummaryKind.FunctionKind
      { CallGraphEdgeList := callees.map (fun g => (ValueInfo.VI_GUID g, 0)),
        TypeTests := [] } }

/-- The symbol hash of the example: `main`, `foo` and `bar` get 1, 2 and 3. -/
def exampleGUID (s : String) : GUID :=
  if s = "main" then 1 else if s = "foo" then 2 else if s = "bar" then 3 else 0

/-- The two definitions of `bar`, both weak, in merge rank order. -/
def exampleBar : GlobalValueSummaryList :=
  [exampleFunction 103 "m1" LinkageTypes.WeakAnyLinkage [],
   exampleFunction 104 "m2" LinkageTypes.WeakAnyLinkage []]

/-- The combined index of the example: `main` calls `foo`, `foo` calls `bar`,
and `bar` is defined twice. -/
def exampleIndex : ModuleSummaryIndex :=
  { GlobalValueMap :=
      [(1, [exampleFunction 101 "m2" LinkageTypes.ExternalLinkage [2]]),
       (2, [exampleFunction 102 "m0" LinkageTypes.ExternalLinkage [3]]),
       (3, exampleBar)] }

/-! ## Specification vocabulary for the reachability walk -/

/-- The edge relation of the combined index: `G` steps to `H` when some summary of `G`
lists `H` as a reference, or is a function summary that lists `H` as a call target or
as a type-test identity. -/
def Step (Index : ModuleSummaryIndex) (G H : GUID) : Prop :=
  ∃ SummaryList, Index.findGlobalValueSummaryList G = some SummaryList ∧
    ∃ S ∈ SummaryList,
      (∃ Ref ∈ S.RefEdgeList, Ref.targetGUID = H) ∨
      (∃ FS, S.Kind = SummaryKind.FunctionKind FS ∧
        ((∃ Call ∈ FS.CallGraphEdgeList, Call.1.targetGUID = H) ∨ H ∈ FS.TypeTests))

/-- Reachability in zero or more steps. -/
def Reachable (Index : ModuleSummaryIndex) (G H : GUID) : Prop :=
  Relation.ReflTransGen (Step Index) G H

/-- The GUIDs one summary makes `addPreservedGUID` recurse on, in the order of the
calls: references, then (for a function summary) call targets, then type tests. -/
def edgeTargets (S : GlobalValueSummary) : List GUID :=
  S.RefEdgeList.map ValueInfo.targetGUID ++
    match S.Kind with
    | SummaryKind.FunctionKind FS =>
      FS.CallGraphEdgeList.map (fun Call => Call.1.targetGUID) ++ FS.TypeTests
    | _ => []

/-- A run of `addPreservedGUID` on each GUID of a list in turn. -/
def visitAll (Index : ModuleSummaryIndex) (fuel : Nat) (Preserved : GUIDSet)
    (targets : List GUID) : Option GUIDSet :=
  targets.foldlM (fun P g => addPreservedGUID Index fuel P g) Preserved

/-- Every identity of `P` outside `X` has all its successors in `P`. -/
def ClosedExcept (Index : ModuleSummaryIndex) (X P : GUIDSet) : Prop :=
  ∀ g ∈ P, g ∉ X → ∀ h, Step Index g h → h ∈ P

/-- The identities that have a summary list in the index. -/
def indexKeys (Index : ModuleSummaryIndex) : GUIDSet :=
  (Index.GlobalValueMap.map Prod.fst).toFinset

/-- What one returning call of `addPreservedGUID` does to the preserved set. -/
structure VisitSpec (Index : ModuleSummaryIndex) (P : GUIDSet) (G : GUID) (Q : GUIDSet) :
    Prop where
  mono : P ⊆ Q
  mem : G ∈ Q
  sound : ∀ x ∈ Q, x ∈ P ∨ Reachable Index G x
  closed : ∀ X, ClosedExcept Index X P → ClosedExcept Index X Q

/-- What a returning run of `visitAll` does to the preserved set. -/
structure VisitAllSpec (Index : ModuleSummaryIndex) (P : GUIDSet) (ts : List GUID)
    (Q : GUIDSet) : Prop where
  mono : P ⊆ Q
  mem : ∀ t ∈ ts, t ∈ Q
  sound : ∀ x ∈ Q, x ∈ P ∨ ∃ t ∈ ts, Reachable Index t x
  closed : ∀ X, ClosedExcept Index X P → ClosedExcept Index X Q

/-- The function `addPreservedGUID` with a ghost log next to `Preserved`: the code is
the same, and each call that gets past the guard `if (Preserved.count(GUID)) return;`
appends its GUID to the log. The log lists the calls that go on to look up, and
expand, the summary list of their GUID. -/
def addPreservedGUIDLog (Index : ModuleSummaryIndex) :
    Nat → GUIDSet × List GUID → GUID → Option (GUIDSet × List GUID)
  | 0, _, _ => none
  | fuel + 1, (Preserved, log), G =>
    if G ∈ Preserved then
      some (Preserved, log)
    else
      let Preserved := insert G Preserved
      let log := log ++ [G]
      match Index.findGlobalValueSummaryList G with
      | none => some (Preserved, log)
      | some SummaryList =>
        SummaryList.foldlM (fun st Summary => do
          let st ← Summary.RefEdgeList.foldlM
            (fun st Ref => addPreservedGUIDLog Index fuel st Ref.targetGUID) st
          match Summary.Kind with
          | SummaryKind.FunctionKind FS => do
            let st ← FS.CallGraphEdgeList.foldlM
              (fun st Call => addPreservedGUIDLog Index fuel st Call.1.targetGUID) st
            FS.TypeTests.foldlM
              (fun st GUID => addPreservedGUIDLog Index fuel st GUID) st
          | _ => pure st) (Preserved, log)

/-- What a returning run of the logged walk adds to the log: each identity that
entered the preserved set, once. -/
structure LogSpec (P : GUIDSet) (log : List GUID) (Q : GUIDSet) (log1 : List GUID)
    (new : List GUID) : Prop where
  eq : log1 = log ++ new
  nodup : new.Nodup
  mem : ∀ x, x ∈ new ↔ x ∈ Q ∧ x ∉ P
  mono : P ⊆ Q

/-- An index with cycles: function 1 calls itself and 2, and function 2 refers to 1
and has a type test on 7, which has no summary. -/
def exampleCycle : ModuleSummaryIndex :=
  { GlobalValueMap :=
      [(1, [exampleFunction 201 "a" LinkageTypes.ExternalLinkage [1, 2]]),
       (2, [{ addr := 202, ModulePath := "b", linkage := LinkageTypes.InternalLinkage,
              RefEdgeList := [ValueInfo.VI_GUID 1],
              Kind := SummaryKind.FunctionKind
                { CallGraphEdgeList := [], TypeTests := [7] } }])] }

/-! ## `getFirstDefinitionForLinker` and the prevailing copy -/

/-- The function `getFirstDefinitionForLinker(GVSummaryList)`; `none` is `nullptr`.
The two `llvm::find_if` searches are `List.find?`. -/
def getFirstDefinitionForLinker (GVSummaryList : GlobalValueSummaryList) :
    Option GlobalValueSummary :=
  let StrongDefForLinker := GVSummaryList.find? (fun Summary =>
    let Linkage := Summary.linkage
    !isAvailableExternallyLinkage Linkage && !isWeakForLinker Linkage)
  match StrongDefForLinker with
  | some Summary => some Summary
  | none =>
    let FirstDefForLinker := GVSummaryList.find? (fun Summary =>
      let Linkage := Summary.linkage
      !isAvailableExternallyLinkage Linkage)
    match FirstDefForLinker with
    | none => none
    | some Summary => some Summary

/-- Equality of two `const GlobalValueSummary *`: both null, or the same address. -/
def samePointer (A B : Option GlobalValueSummary) : Bool :=
  decide (A.map GlobalValueSummary.addr = B.map GlobalValueSummary.addr)

/-- The map `PrevailingCopy` after the loop `for (auto &I : Ret->Index)` of
`LLVMRustCreateThinLTOData`. -/
def buildPrevailingCopy (Index : ModuleSummaryIndex) :
    AssocMap GUID (Option GlobalValueSummary) :=
  Index.GlobalValueMap.foldl
    (fun PrevailingCopy I =>
      if I.2.length > 1 then
        AssocMap.set PrevailingCopy I.1 (getFirstDefinitionForLinker I.2)
      else PrevailingCopy)
    []

/-- The lambda `isPrevailing` of `LLVMRustCreateThinLTOData`, with the captured
`PrevailingCopy` as first argument. -/
def isPrevailing (PrevailingCopy : AssocMap GUID (Option GlobalValueSummary))
    (G : GUID) (S : Option GlobalValueSummary) : Bool :=
  match AssocMap.find PrevailingCopy G with
  | none => true
  | some Prevailing => samePointer Prevailing S

/-! ## `LLVMRustThinLTOData` and `LLVMRustCreateThinLTOData` -/

/-- A `StringRef`: data pointer and length. -/
structure StringRef where
  Data : Nat
  Length : Nat
  deriving DecidableEq, Repr

/-- A `MemoryBufferRef`: the bytes and the identifier of the buffer. -/
structure MemoryBufferRef where
  Buffer : StringRef
  Identifier : String
  deriving DecidableEq, Repr

/-- A `FunctionImporter::ImportMapTy`: per source module, the GUIDs to import with
their thresholds. -/
abbrev ImportMapTy := AssocMap String (AssocMap GUID Nat)

/-- A `FunctionImporter::ExportSetTy`. -/
abbrev ExportSetTy := Finset GUID

/-- A `GVSummaryMapTy`, which is a `DenseMap<GUID, GlobalValueSummary *>`: the summaries
that one module defines, each as the address of the summary object that the index
owns. What is read through such a pointer is the summary as the index holds it at the
time of the read. -/
abbrev GVSummaryMapTy := AssocMap GUID Nat

/-- The struct `LLVMRustThinLTOData`. -/
structure LLVMRustThinLTOData where
  Index : ModuleSummaryIndex
  ModuleMap : AssocMap String MemoryBufferRef
  GUIDPreservedSymbols : GUIDSet
  ImportLists : AssocMap String ImportMapTy
  ExportLists : AssocMap String ExportSetTy
  ModuleToDefinedGVSummaries : AssocMap String GVSummaryMapTy

/-- The struct `LLVMRustThinLTOModule`: `data` is the pointer to the bytes. -/
structure LLVMRustThinLTOModule where
  identifier : String
  data : Nat
  len : Nat
  deriving DecidableEq, Repr

/-- The LLVM entry points that `LLVMRustCreateThinLTOData` calls; their code is not
part of `PassWrapper.cpp`, so they are parameters of the embedding. -/
structure LLVM where
  /-- The pair `ModuleSummaryIndexObjectFile::create(mem_buffer)` and `takeIndex()`:
  the decoded summary index of a buffer, or the message of the decode error. -/
  create : MemoryBufferRef → Except String ModuleSummaryIndex
  /-- The call `Index.mergeFrom(std::move(Other), NextModuleId)`. -/
  mergeFrom : ModuleSummaryIndex → ModuleSummaryIndex → Nat → ModuleSummaryIndex
  /-- The hash `GlobalValue::getGUID(name)`. -/
  getGUID : String → GUID
  /-- The call `Index.collectDefinedGVSummariesPerModule(...)`. -/
  collectDefinedGVSummariesPerModule : ModuleSummaryIndex → AssocMap String GVSummaryMapTy
  /-- The call `computeDeadSymbols(Index, GUIDPreservedSymbols)`, as the index it leaves. -/
  computeDeadSymbols : ModuleSummaryIndex → GUIDSet → ModuleSummaryIndex
  /-- The call `ComputeCrossModuleImport(...)`: the import and export lists it fills. -/
  ComputeCrossModuleImport : ModuleSummaryIndex → AssocMap String GVSummaryMapTy →
    AssocMap String ImportMapTy × AssocMap String ExportSetTy
  /-- The call `thinLTOResolveWeakForLinkerInIndex(Index, isPrevailing, recordNewLinkage)`:
  the index it leaves and the calls of `recordNewLinkage` it makes, in order. -/
  thinLTOResolveWeakForLinkerInIndex : ModuleSummaryIndex →
    (GUID → Option GlobalValueSummary → Bool) →
    ModuleSummaryIndex × List (String × GUID × LinkageTypes)
  /-- The call `thinLTOInternalizeAndPromoteInIndex(Index, isExported)`. -/
  thinLTOInternalizeAndPromoteInIndex : ModuleSummaryIndex → (String → GUID → Bool) →
    ModuleSummaryIndex

/-- Modelled from the spec: `LLVMRustSetLastError`, defined outside `PassWrapper.cpp`;
it sets the process-wide "last error" string slot (§6, error channel), overwriting
what the slot held. The result is the new content of the slot. -/
def LLVMRustSetLastError (Err : String) : Option String :=
  some Err

/-- The `MemoryBufferRef` that the merge loop builds for a module:
`MemoryBufferRef(StringRef(module->data, module->len), module->identifier)`. -/
def LLVMRustThinLTOModule.mem_buffer (module : LLVMRustThinLTOModule) : MemoryBufferRef :=
  { Buffer := { Data := module.data, Length := module.len },
    Identifier := module.identifier }

/-- The loop `for (int i = 0; i < num_modules; i++)` of `LLVMRustCreateThinLTOData`,
from iteration `i` on, over the modules not yet visited. An error is the message
passed to `LLVMRustSetLastError` before `return nullptr`. -/
def mergeModules (llvm : LLVM) :
    List LLVMRustThinLTOModule → Nat → LLVMRustThinLTOData → Except String LLVMRustThinLTOData
  | [], _, Ret => Except.ok Ret
  | module :: rest, i, Ret =>
    let mem_buffer := module.mem_buffer
    let Ret := { Ret with ModuleMap := AssocMap.set Ret.ModuleMap module.identifier mem_buffer }
    match llvm.create mem_buffer with
    | Except.error Err => Except.error Err
    | Except.ok Index =>
      mergeModules llvm rest (i + 1) { Ret with Index := llvm.mergeFrom Ret.Index Index i }

/-- The lambda `isExported` of `LLVMRustCreateThinLTOData`, with the captured `Ret`
as first argument. -/
def isExported (Ret : LLVMRustThinLTOData) (ModuleIdentifier : String) (G : GUID) : Bool :=
  (match AssocMap.find Ret.ExportLists ModuleIdentifier with
    | none => false
    | some ExportList => decide (G ∈ ExportList)) ||
  decide (G ∈ Ret.GUIDPreservedSymbols)

/-- The lambda `recordNewLinkage` of `LLVMRustCreateThinLTOData`:
`ResolvedODR[ModuleIdentifier][GUID] = NewLinkage`. -/
def recordNewLinkage (ResolvedODR : AssocMap String (AssocMap GUID LinkageTypes))
    (ModuleIdentifier : String) (G : GUID) (NewLinkage : LinkageTypes) :
    AssocMap String (AssocMap GUID LinkageTypes) :=
  AssocMap.set ResolvedODR ModuleIdentifier
    (AssocMap.set ((AssocMap.find ResolvedODR ModuleIdentifier).getD []) G NewLinkage)

/-- The value of `make_unique<LLVMRustThinLTOData>()`. -/
def LLVMRustThinLTOData.empty : LLVMRustThinLTOData :=
  { Index := { GlobalValueMap := [] }, ModuleMap := [], GUIDPreservedSymbols := ∅,
    ImportLists := [], ExportLists := [], ModuleToDefinedGVSummaries := [] }

/-- The function `LLVMRustCreateThinLTOData`. The result is the returned pointer
(`none` is `nullptr`) and the last-error slot after the call; the outer `none` is a
run whose preserved-symbol loop did not return within the fuel. The map `ResolvedODR`
is a local variable of the function and is not part of what it returns. -/
def LLVMRustCreateThinLTOData (llvm : LLVM) (fuel : Nat)
    (modules : List LLVMRustThinLTOModule) (preserved_symbols : List String)
    (LastError : Option String) : Option (Option LLVMRustThinLTOData × Option String) :=
  let Ret := LLVMRustThinLTOData.empty
  match mergeModules llvm modules 0 Ret with
  | Except.error Err => some (none, LLVMRustSetLastError Err)
  | Except.ok Ret =>
    let Ret := { Ret with
      ModuleToDefinedGVSummaries := llvm.collectDefinedGVSummariesPerModule Ret.Index }
    match preservedSymbolsLoop llvm.getGUID Ret.Index fuel preserved_symbols
        Ret.GUIDPreservedSymbols with
    | none => none
    | some Preserved =>
      let Ret := { Ret with GUIDPreservedSymbols := Preserved }
      let Ret := { Ret with
        Index := llvm.computeDeadSymbols Ret.Index Ret.GUIDPreservedSymbols }
      let Lists := llvm.ComputeCrossModuleImport Ret.Index Ret.ModuleToDefinedGVSummaries
      let Ret := { Ret with ImportLists := Lists.1, ExportLists := Lists.2 }
      let PrevailingCopy := buildPrevailingCopy Ret.Index
      let Resolved :=
        llvm.thinLTOResolveWeakForLinkerInIndex Ret.Index (isPrevailing PrevailingCopy)
      let _ResolvedODR := Resolved.2.foldl
        (fun ResolvedODR call => recordNewLinkage ResolvedODR call.1 call.2.1 call.2.2) []
      let Ret := { Ret with Index := Resolved.1 }
      let Ret := { Ret with
        Index := llvm.thinLTOInternalizeAndPromoteInIndex Ret.Index (isExported Ret) }
      some (some Ret, LastError)

/-- A summary list for the linkage rule: a weak definition, an available-externally
copy and two external definitions. -/
def exampleMixed : GlobalValueSummaryList :=
  [exampleFunction 301 "m0" LinkageTypes.WeakODRLinkage [],
   exampleFunction 302 "m1" LinkageTypes.AvailableExternallyLinkage [],
   exampleFunction 303 "m2" LinkageTypes.ExternalLinkage [],
   exampleFunction 304 "m3" LinkageTypes.ExternalLinkage []]

/-- A summary list without a strong definition: an available-externally copy, then
two link-once definitions. -/
def exampleLinkOnce : GlobalValueSummaryList :=
  [exampleFunction 311 "m0" LinkageTypes.AvailableExternallyLinkage [],
   exampleFunction 312 "m1" LinkageTypes.LinkOnceODRLinkage [],
   exampleFunction 313 "m2" LinkageTypes.LinkOnceODRLinkage []]

/-- A summary list of available-externally copies only. -/
def exampleAvailable : GlobalValueSummaryList :=
  [exampleFunction 321 "m0" LinkageTypes.AvailableExternallyLinkage [],
   exampleFunction 322 "m1" LinkageTypes.AvailableExternallyLinkage []]

/-- Plan data for the export examples: module `m0` exports 2, and 1 is preserved. -/
def exampleData : LLVMRustThinLTOData :=
  { Index := exampleIndex, ModuleMap := [], GUIDPreservedSymbols := {1},
    ImportLists := [], ExportLists := [("m0", {2})], ModuleToDefinedGVSummaries := [] }

/-- An internalization step for the examples: a summary that is not exported gets
internal linkage, and an exported one is left as it is. -/
def exampleInternalize (isExported : String → GUID → Bool) (G : GUID)
    (S : GlobalValueSummary) : GlobalValueSummary :=
  if isExported S.ModulePath G then S
  else { S with linkage := LinkageTypes.InternalLinkage }

/-- A stand-in for LLVM in the examples: a buffer of length 0 does not decode; any
other buffer decodes to one external function whose GUID is the data pointer;
merging appends the entries and stamps the module id on the summaries' addresses;
the planning passes do nothing. -/
def exampleLLVM : LLVM :=
  { create := fun mem_buffer =>
      if mem_buffer.Buffer.Length = 0 then
        Except.error ("cannot decode " ++ mem_buffer.Identifier)
      else
        Except.ok { GlobalValueMap :=
          [(mem_buffer.Buffer.Data,
            [exampleFunction 0 mem_buffer.Identifier LinkageTypes.ExternalLinkage []])] },
    mergeFrom := fun Index Other NextModuleId =>
      { GlobalValueMap := Index.GlobalValueMap ++
          Other.GlobalValueMap.map (fun e =>
            (e.1, e.2.map (fun S => { S with addr := NextModuleId }))) },
    getGUID := exampleGUID,
    collectDefinedGVSummariesPerModule := fun _ => [],
    computeDeadSymbols := fun Index _ => Index,
    ComputeCrossModuleImport := fun _ _ => ([], []),
    thinLTOResolveWeakForLinkerInIndex := fun Index _ => (Index, []),
    thinLTOInternalizeAndPromoteInIndex := fun Index _ => Index }

/-- Three input modules; the first and the last carry the same identifier. -/
def exampleModules : List LLVMRustThinLTOModule :=
  [{ identifier := "a", data := 10, len := 4 },
   { identifier := "b", data := 20, len := 5 },
   { identifier := "a", data := 30, len := 6 }]

/-- Four input modules; the one at position 1 has a buffer that does not decode. -/
def exampleBadModules : List LLVMRustThinLTOModule :=
  [{ identifier := "a", data := 10, len := 4 },
   { identifier := "bad", data := 20, len := 0 },
   { identifier := "c", data := 30, len := 6 },
   { identifier := "worse", data := 40, len := 0 }]

/-- The summary indexes that `exampleLLVM` decodes from `exampleModules`. -/
def exampleDecoded : List ModuleSummaryIndex :=
  [{ GlobalValueMap := [(10, [exampleFunction 0 "a" LinkageTypes.ExternalLinkage []])] },
   { GlobalValueMap := [(20, [exampleFunction 0 "b" LinkageTypes.ExternalLinkage []])] },
   { GlobalValueMap := [(30, [exampleFunction 0 "a" LinkageTypes.ExternalLinkage []])] }]

/-! ## The per-module import and the bitcode parser -/

/-- The value of a default-constructed `MemoryBufferRef`: no bytes and an empty
identifier. -/
def MemoryBufferRef.empty : MemoryBufferRef :=
  { Buffer := { Data := 0, Length := 0 }, Identifier := "" }

/-- The `lookup` of a `StringMap`: the value bound to `k`, or the default-constructed
value `ValueTy` when `k` has no binding. -/
def AssocMap.lookup {κ α : Type} [DecidableEq κ] (m : AssocMap κ α) (k : κ) (ValueTy : α) : α :=
  match AssocMap.find m k with
  | some v => v
  | none => ValueTy

/-- An `LLVMContext` as far as this file reads it: its identity and whether
`enableDebugTypeODRUniquing()` has been called on it. -/
structure LLVMContext where
  id : Nat
  DebugTypeODRUniquing : Bool
  deriving DecidableEq, Repr

/-- A `Module` as far as this file reads it: `getModuleIdentifier()`, `getContext()`,
and the global values it holds. -/
structure Module where
  ModuleIdentifier : String
  Context : LLVMContext
  Globals : List GUID
  deriving DecidableEq, Repr

/-- The LLVM bitcode entry points that the per-module functions call; their code is not
part of `PassWrapper.cpp`, so they are parameters of the embedding. An `Except.error`
is an `Expected` that holds an error, with the text `toString` gives for it. -/
structure LLVMBitcode where
  /-- The call `getLazyBitcodeModule(Buffer, Context, ShouldLazyLoadMetadata, IsImporting)`. -/
  getLazyBitcodeModule : MemoryBufferRef → LLVMContext → Bool → Bool → Except String Module
  /-- The call `FunctionImporter(Index, Loader).importFunctions(Mod, ImportList)`: the
  `Expected<bool>` it returns and the module it leaves. -/
  importFunctions : ModuleSummaryIndex → (String → Except String Module) → Module →
    ImportMapTy → Except String Bool × Module
  /-- The call `parseBitcodeFile(Buffer, Context)`. -/
  parseBitcodeFile : MemoryBufferRef → LLVMContext → Except String Module

/-- The lambda `Loader` of `LLVMRustPrepareThinLTOImport`, with the captured `Data` and
`Mod` as first arguments. -/
def Loader (bc : LLVMBitcode) (Data : LLVMRustThinLTOData) (Mod : Module)
    (Identifier : String) : Except String Module :=
  let Memory := AssocMap.lookup Data.ModuleMap Identifier MemoryBufferRef.empty
  let Context := Mod.Context
  bc.getLazyBitcodeModule Memory Context true true

/-- The function `LLVMRustPrepareThinLTOImport`: the returned `bool`, the last-error
slot after the call, and the module after the call. -/
def LLVMRustPrepareThinLTOImport (bc : LLVMBitcode) (Data : LLVMRustThinLTOData)
    (M : Module) (LastError : Option String) : Bool × Option String × Module :=
  let Mod := M
  let ImportList := AssocMap.lookup Data.ImportLists Mod.ModuleIdentifier []
  let Result := bc.importFunctions Data.Index (Loader bc Data Mod) Mod ImportList
  match Result.1 with
  | Except.error Err => (false, LLVMRustSetLastError Err, Result.2)
  | Except.ok _ => (true, LastError, Result.2)

/-- The function `LLVMRustParseBitcodeForThinLTO`: the returned module (`none` is
`nullptr`), the last-error slot after the call, and the context after the call. -/
def LLVMRustParseBitcodeForThinLTO (bc : LLVMBitcode) (Context : LLVMContext)
    (data : Nat) (len : Nat) (identifier : String) (LastError : Option String) :
    Option Module × Option String × LLVMContext :=
  let Data : StringRef := { Data := data, Length := len }
  let Buffer : MemoryBufferRef := { Buffer := Data, Identifier := identifier }
  let Context := { Context with DebugTypeODRUniquing := true }
  match bc.parseBitcodeFile Buffer Context with
  | Except.error Err => (none, LLVMRustSetLastError Err, Context)
  | Except.ok Src => (some Src, LastError, Context)

/-! ## `LLVMRustWriteOutputFile` -/

/-- The enum `LLVMRustFileType`. -/
inductive LLVMRustFileType
  | Other
  | AssemblyFile
  | ObjectFile
  deriving DecidableEq, Repr

/-- The enum `TargetMachine::CodeGenFileType` of LLVM. -/
inductive CodeGenFileType
  | CGFT_AssemblyFile
  | CGFT_ObjectFile
  | CGFT_Null
  deriving DecidableEq, Repr

/-- The function `fromRust(LLVMRustFileType)`. Its `default:` case is
`llvm_unreachable("Bad FileType.")`: the code declares that no value but `AssemblyFile`
and `ObjectFile` is passed, and the source does not fix what is returned for another
one; `Unreachable` stands for that value. -/
def fromRust (Unreachable : CodeGenFileType) (RustFileType : LLVMRustFileType) :
    CodeGenFileType :=
  match RustFileType with
  | LLVMRustFileType.AssemblyFile => CodeGenFileType.CGFT_AssemblyFile
  | LLVMRustFileType.ObjectFile => CodeGenFileType.CGFT_ObjectFile
  | _ => Unreachable

/-- The enum `LLVMRustResult`, declared in `rustllvm.h`: the two values that
`LLVMRustWriteOutputFile` returns. -/
inductive LLVMRustResult
  | Success
  | Failure
  deriving DecidableEq, Repr

/-- A `std::error_code`: `if (EC)` tests `value ≠ 0`, and `message` is `EC.message()`. -/
structure error_code where
  value : Nat
  message : String
  deriving DecidableEq, Repr

/-- A call made on the pass manager `PM`, or its deletion. -/
inductive PassManagerCall
  | addPassesToEmitFile (Target : Nat) (OS : String) (FileType : CodeGenFileType)
      (DisableVerify : Bool)
  | run (M : Nat)
  | delete
  deriving DecidableEq, Repr

/-- The function `LLVMRustWriteOutputFile`. `openFile` is the constructor
`raw_fd_ostream OS(Path, EC, sys::fs::F_None)`, as the error code it leaves in `EC`,
and `Unreachable` is the parameter of `fromRust`. The result is the returned value, the
last-error slot after the call and the calls made on `PM`, in order. -/
def LLVMRustWriteOutputFile (Unreachable : CodeGenFileType) (openFile : String → error_code)
    (Target : Nat) (M : Nat) (Path : String) (RustFileType : LLVMRustFileType)
    (LastError : Option String) : LLVMRustResult × Option String × List PassManagerCall :=
  let FileType := fromRust Unreachable RustFileType
  let ErrorInfo := ""
  let EC := openFile Path
  let ErrorInfo := if EC.value ≠ 0 then EC.message else ErrorInfo
  if ErrorInfo ≠ "" then
    (LLVMRustResult.Failure, LLVMRustSetLastError ErrorInfo, [])
  else
    (LLVMRustResult.Success, LastError,
      [PassManagerCall.addPassesToEmitFile Target Path FileType false,
       PassManagerCall.run M,
       PassManagerCall.delete])

/-! ## `LLVMRustSetLLVMOptions` -/

/-- The state that `LLVMRustSetLLVMOptions` works on: its static flag `Initialized`
and the calls of `cl::ParseCommandLineOptions` made so far, oldest first. -/
structure OptionsState where
  Initialized : Bool
  Parsed : List (Nat × List String)
  deriving DecidableEq, Repr

/-- The state at program start: `static bool Initialized = false`, and no call of
`cl::ParseCommandLineOptions` yet. -/
def OptionsState.initial : OptionsState :=
  { Initialized := false, Parsed := [] }

/-- The function `LLVMRustSetLLVMOptions(Argc, Argv)`. -/
def LLVMRustSetLLVMOptions (st : OptionsState) (Argc : Nat) (Argv : List String) :
    OptionsState :=
  if st.Initialized then
    st
  else
    { Initialized := true, Parsed := st.Parsed ++ [(Argc, Argv)] }

/-- A sequence of calls of `LLVMRustSetLLVMOptions`, in order. -/
def callsOfSetLLVMOptions (st : OptionsState) (calls : List (Nat × List String)) :
    OptionsState :=
  calls.foldl (fun st call => LLVMRustSetLLVMOptions st call.1 call.2) st

/-! ## `RustAssemblyAnnotationWriter::CallDemangle` -/

/-- A `DemangleFn` callback, called as `Demangle(name, name_len, out, out_len)`: from
the name and the output buffer it gets (whose length is `out_len`) to the bytes it
writes at the start of the buffer and the length it returns. -/
abbrev DemangleFn := List Nat → List Nat → List Nat × Nat

/-- The effect of `Buf.resize(n)` on a `std::vector<char>`: new bytes are zero. -/
def resize (Buf : List Nat) (n : Nat) : List Nat :=
  Buf.take n ++ List.replicate (n - Buf.length) 0

/-- The buffer that `CallDemangle` passes to the callback: `Buf`, resized to twice the
size of the name when it is smaller (`size_t` arithmetic). -/
def demangleBuffer (Buf : List Nat) (name : List Nat) : List Nat :=
  if Buf.length < (name.length * 2) % 2 ^ 64 then
    resize Buf ((name.length * 2) % 2 ^ 64)
  else Buf

/-- The buffer after the callback has written `written` at its start; the length of
the buffer stays as it is. -/
def afterWrite (Buf : List Nat) (written : List Nat) : List Nat :=
  (written ++ Buf.drop written.length).take Buf.length

/-- The method `RustAssemblyAnnotationWriter::CallDemangle(name)`; `Demangle` and `Buf`
are the members of the writer, and `none` is a null `Demangle`. The result is the
returned `StringRef`, as its bytes, and `Buf` after the call. -/
def CallDemangle (Demangle : Option DemangleFn) (Buf : List Nat) (name : List Nat) :
    List Nat × List Nat :=
  match Demangle with
  | none => ([], Buf)
  | some Demangle =>
    let Buf := demangleBuffer Buf name
    let Out := Demangle name Buf
    let Buf := afterWrite Buf Out.1
    let R := Out.2
    if R = 0 then
      ([], Buf)
    else
      let Demangled := Buf.take R
      if Demangled = name then
        ([], Buf)
      else
        (Demangled, Buf)

/-- A module of the examples, in context 1. -/
def exampleModule : Module :=
  { ModuleIdentifier := "m0", Context := { id := 1, DebugTypeODRUniquing := false },
    Globals := [2] }

/-- The import of the examples: the loader is asked for each source module of the import
list in turn, the first error is the result, and with no error the globals of the
loaded modules are added to the module. -/
def exampleImportFunctions (_Index : ModuleSummaryIndex)
    (Loader : String → Except String Module) (Mod : Module) (ImportList : ImportMapTy) :
    Except String Bool × Module :=
  match ImportList.foldlM (fun Globals e => (Loader e.1).map (fun Src => Globals ++ Src.Globals))
      ([] : List GUID) with
  | Except.error Err => (Except.error Err, Mod)
  | Except.ok Globals =>
    (Except.ok (decide (Globals ≠ [])), { Mod with Globals := Mod.Globals ++ Globals })

/-- A stand-in for the bitcode reader that accepts every buffer, the empty one
included: a buffer of length `n` at address `a` holds the one global `a + n`. -/
def exampleBitcode : LLVMBitcode :=
  { getLazyBitcodeModule := fun Buffer Context _ _ =>
      Except.ok { ModuleIdentifier := Buffer.Identifier, Context := Context,
                  Globals := [Buffer.Buffer.Data + Buffer.Buffer.Length] },
    importFunctions := exampleImportFunctions,
    parseBitcodeFile := fun Buffer Context =>
      Except.ok { ModuleIdentifier := Buffer.Identifier, Context := Context,
                  Globals := [Buffer.Buffer.Data + Buffer.Buffer.Length] } }

/-- A stand-in for the bitcode reader that rejects a buffer of length 0. -/
def exampleStrictBitcode : LLVMBitcode :=
  { getLazyBitcodeModule := fun Buffer Context _ _ =>
      if Buffer.Buffer.Length = 0 then Except.error "Invalid bitcode signature"
      else Except.ok { ModuleIdentifier := Buffer.Identifier, Context := Context,
                       Globals := [Buffer.Buffer.Data + Buffer.Buffer.Length] },
    importFunctions := exampleImportFunctions,
    parseBitcodeFile := fun Buffer Context =>
      if Buffer.Buffer.Length = 0 then Except.error "Invalid bitcode signature"
      else Except.ok { ModuleIdentifier := Buffer.Identifier, Context := Context,
                       Globals := [Buffer.Buffer.Data + Buffer.Buffer.Length] } }

/-- Plan data for the import examples: module `m1` is stored, and `m0` imports from
`m1` and from `m9`, which is not stored. -/
def exampleImportData : LLVMRustThinLTOData :=
  { Index := exampleIndex,
    ModuleMap := [("m1", { Buffer := { Data := 100, Length := 8 }, Identifier := "m1" })],
    GUIDPreservedSymbols := {1},
    ImportLists := [("m0", [("m1", [(3, 100)]), ("m9", [(5, 100)])]),
                    ("m2", [("m1", [(3, 100)])])],
    ExportLists := [("m1", {3})], ModuleToDefinedGVSummaries := [] }

/-- An open that fails on the path `/nowhere/out.o` and succeeds on every other path. -/
def exampleOpen (Path : String) : error_code :=
  if Path = "/nowhere/out.o" then { value := 2, message := "No such file or directory" }
  else { value := 0, message := "Success" }

/-- A demangler for the examples: it drops the first byte of a name that starts with
95 (an underscore) and writes what is left; on any other name it fails. -/
def exampleDemangle : DemangleFn := fun name _ =>
  match name with
  | 95 :: rest => (rest, rest.length)
  | _ => ([], 0)

/-- A demangler that writes the name back unchanged. -/
def exampleIdentityDemangle : DemangleFn := fun name _ => (name, name.length)

/-- An index whose identity 5 has one summary, of available-externally linkage, next to
the twice-defined identity 3 of the example. -/
def exampleSingle : ModuleSummaryIndex :=
  { GlobalValueMap :=
      [(3, exampleBar),
       (5, [exampleFunction 105 "m4" LinkageTypes.AvailableExternallyLinkage []])] }

/-! ## Reading the plan: summaries behind pointers, and the recorded decisions -/

/-- The summary object of the index at an address: what a `GlobalValueSummary *` that
points into the index gives when it is dereferenced. -/
def ModuleSummaryIndex.summaryAt (Index : ModuleSummaryIndex) (Address : Nat) :
    Option GlobalValueSummary :=
  Index.GlobalValueMap.findSome? (fun I => I.2.find? (fun S => decide (S.addr = Address)))

/-- The local `DefinedGlobals` of `LLVMRustPrepareThinLTOResolveWeak` and of
`LLVMRustPrepareThinLTOInternalize`:
`Data->ModuleToDefinedGVSummaries.lookup(Mod.getModuleIdentifier())`. -/
def DefinedGlobals (Data : LLVMRustThinLTOData) (Mod : Module) : GVSummaryMapTy :=
  AssocMap.lookup Data.ModuleToDefinedGVSummaries Mod.ModuleIdentifier []

/-- The linkage that is read for `G` through `DefinedGlobals`: the linkage of the summary
of `Data.Index` that the pointer bound to `G` points to. -/
def definedLinkage (Data : LLVMRustThinLTOData) (Mod : Module) (G : GUID) :
    Option LinkageTypes :=
  (AssocMap.find (DefinedGlobals Data Mod) G).bind
    (fun Address => (Data.Index.summaryAt Address).map (fun S => S.linkage))

/-- The calls of `recordNewLinkage` that a run of `LLVMRustCreateThinLTOData` makes, in
order, when the run gets to `thinLTOResolveWeakForLinkerInIndex`: the same steps as in
`LLVMRustCreateThinLTOData` up to that call. The local map `ResolvedODR` holds these
decisions when the function returns. -/
def recordNewLinkageCalls (llvm : LLVM) (fuel : Nat)
    (modules : List LLVMRustThinLTOModule) (preserved_symbols : List String) :
    Option (List (String × GUID × LinkageTypes)) :=
  let Ret := LLVMRustThinLTOData.empty
  match mergeModules llvm modules 0 Ret with
  | Except.error _ => none
  | Except.ok Ret =>
    let Ret := { Ret with
      ModuleToDefinedGVSummaries := llvm.collectDefinedGVSummariesPerModule Ret.Index }
    match preservedSymbolsLoop llvm.getGUID Ret.Index fuel preserved_symbols
        Ret.GUIDPreservedSymbols with
    | none => none
    | some Preserved =>
      let Ret := { Ret with GUIDPreservedSymbols := Preserved }
      let Ret := { Ret with
        Index := llvm.computeDeadSymbols Ret.Index Ret.GUIDPreservedSymbols }
      let PrevailingCopy := buildPrevailingCopy Ret.Index
      some (llvm.thinLTOResolveWeakForLinkerInIndex Ret.Index
        (isPrevailing PrevailingCopy)).2

/-! ## A stand-in for the planning passes of LLVM -/

/-- The test `GlobalValue::isLocalLinkage` of LLVM: internal or private linkage. -/
def isLocalLinkage (Linkage : LinkageTypes) : Bool :=
  decide (Linkage = LinkageTypes.InternalLinkage) ||
  decide (Linkage = LinkageTypes.PrivateLinkage)

/-- The step of LLVM's `thinLTOResolveWeakForLinkerInIndex` on one summary of `G`, for an
index without aliases: a summary that is weak for the linker becomes weak when it
prevails and was link-once, and available-externally when it does not prevail; the
result is the summary with the linkage written and the decision that is recorded
when the linkage has changed. -/
def exampleResolveWeakSummary (isPrev : GUID → Option GlobalValueSummary → Bool) (G : GUID)
    (S : GlobalValueSummary) : GlobalValueSummary × List (String × GUID × LinkageTypes) :=
  let OriginalLinkage := S.linkage
  if !isWeakForLinker OriginalLinkage then (S, [])
  else
    let NewLinkage :=
      if isPrev G (some S) then
        if OriginalLinkage = LinkageTypes.LinkOnceODRLinkage then LinkageTypes.WeakODRLinkage
        else if OriginalLinkage = LinkageTypes.LinkOnceAnyLinkage then
          LinkageTypes.WeakAnyLinkage
        else OriginalLinkage
      else LinkageTypes.AvailableExternallyLinkage
    if NewLinkage ≠ OriginalLinkage then
      ({ S with linkage := NewLinkage }, [(S.ModulePath, G, NewLinkage)])
    else (S, [])

/-- The stand-in for `thinLTOResolveWeakForLinkerInIndex`: every summary of every
identity goes through `exampleResolveWeakSummary`, in index order; the index that is
left holds exactly the linkages that are recorded. -/
def exampleResolveWeak (Index : ModuleSummaryIndex)
    (isPrev : GUID → Option GlobalValueSummary → Bool) :
    ModuleSummaryIndex × List (String × GUID × LinkageTypes) :=
  ({ GlobalValueMap := Index.GlobalValueMap.map (fun I =>
      (I.1, I.2.map (fun S => (exampleResolveWeakSummary isPrev I.1 S).1))) },
   Index.GlobalValueMap.flatMap (fun I =>
      I.2.flatMap (fun S => (exampleResolveWeakSummary isPrev I.1 S).2)))

/-- The stand-in for `thinLTOInternalizeAndPromoteInIndex`, as LLVM does it: a summary
that is exported is promoted to external linkage when its linkage is local, and a
summary that is not exported gets internal linkage when its linkage is not local. -/
def exampleInternalizeAndPromote (Index : ModuleSummaryIndex)
    (isExp : String → GUID → Bool) : ModuleSummaryIndex :=
  { GlobalValueMap := Index.GlobalValueMap.map (fun I =>
      (I.1, I.2.map (fun S =>
        if isExp S.ModulePath I.1 then
          if isLocalLinkage S.linkage then { S with linkage := LinkageTypes.ExternalLinkage }
          else S
        else if !isLocalLinkage S.linkage then
          { S with linkage := LinkageTypes.InternalLinkage }
        else S))) }

/-- The stand-in for `collectDefinedGVSummariesPerModule`: for every summary of the
index, the map of its module binds the GUID to the address of the summary. -/
def exampleCollectDefined (Index : ModuleSummaryIndex) : AssocMap String GVSummaryMapTy :=
  Index.GlobalValueMap.foldl (fun Maps I =>
    I.2.foldl (fun Maps S =>
      AssocMap.set Maps S.ModulePath
        (AssocMap.set (AssocMap.lookup Maps S.ModulePath []) I.1 S.addr)) Maps) []

/-- A stand-in for LLVM with the planning passes above. The bytes of every module
decode to one function whose GUID is the data pointer and whose linkage is `Decoded`:
two values of `Decoded` are two contents of the same buffers. -/
def examplePlannerLLVM (Decoded : LinkageTypes) : LLVM :=
  { exampleLLVM with
    create := fun mem_buffer =>
      Except.ok { GlobalValueMap :=
        [(mem_buffer.Buffer.Data, [exampleFunction 0 mem_buffer.Identifier Decoded []])] },
    collectDefinedGVSummariesPerModule := exampleCollectDefined,
    thinLTOResolveWeakForLinkerInIndex := exampleResolveWeak,
    thinLTOInternalizeAndPromoteInIndex := exampleInternalizeAndPromote }

/-- One input module, `a`, whose bytes are at address 7. -/
def exampleOneModule : List LLVMRustThinLTOModule :=
  [{ identifier := "a", data := 7, len := 4 }]

/-- The module `a` as the per-module passes get it. -/
def exampleModuleA : Module :=
  { ModuleIdentifier := "a", Context := { id := 1, DebugTypeODRUniquing := false },
    Globals := [7] }

/-! # Theorems -/

/-! ## Lemmas on maps -/

theorem AssocMap.find_some_mem {κ α : Type} [DecidableEq κ] (m : AssocMap κ α) (k : κ)
    (v : α) (h : AssocMap.find m k = some v) : (k, v) ∈ m := by
  induction m with
  | nil => simp [AssocMap.find] at h
  | cons e rest ih =>
    obtain ⟨k', v'⟩ := e
    by_cases hk : k' = k
    · simp [AssocMap.find, hk] at h
      simp [hk, h]
    · simp [AssocMap.find, hk] at h
      exact List.mem_cons_of_mem _ (ih h)

theorem find_mem_indexKeys (Index : ModuleSummaryIndex) (G : GUID)
    (L : GlobalValueSummaryList) (h : Index.findGlobalValueSummaryList G = some L) :
    G ∈ indexKeys Index := by
  have := AssocMap.find_some_mem _ _ _ h
  simp only [indexKeys, List.mem_toFinset, List.mem_map]
  exact ⟨(G, L), this, rfl⟩

/-! ## Lemmas on `addPreservedGUID` -/

/-- The three nested loops of `addPreservedGUID` over a summary list make the same
calls, in the same order, as one loop over the targets of the list. -/
theorem nestedLoops_eq {σ : Type} (visit : σ → GUID → Option σ)
    (L : GlobalValueSummaryList) (s : σ) :
    L.foldlM (fun s Summary => do
      let s ← Summary.RefEdgeList.foldlM (fun s Ref => visit s Ref.targetGUID) s
      match Summary.Kind with
      | SummaryKind.FunctionKind FS => do
        let s ← FS.CallGraphEdgeList.foldlM (fun s Call => visit s Call.1.targetGUID) s
        FS.TypeTests.foldlM (fun s GUID => visit s GUID) s
      | _ => pure s) s = (L.flatMap edgeTargets).foldlM visit s := by
  induction L generalizing s with
  | nil => rfl
  | cons S rest ih =>
    rw [List.flatMap_cons, List.foldlM_append, List.foldlM_cons]
    have hS : (do
        let s ← S.RefEdgeList.foldlM (fun s Ref => visit s Ref.targetGUID) s
        match S.Kind with
        | SummaryKind.FunctionKind FS => do
          let s ← FS.CallGraphEdgeList.foldlM (fun s Call => visit s Call.1.targetGUID) s
          FS.TypeTests.foldlM (fun s GUID => visit s GUID) s
        | _ => pure s) = (edgeTargets S).foldlM visit s := by
      unfold edgeTargets
      rw [List.foldlM_append, List.foldlM_map]
      congr 1
      funext s1
      cases S.Kind with
      | FunctionKind FS => simp only [List.foldlM_append, List.foldlM_map]
      | AliasKind => simp
      | GlobalVarKind => simp
    rw [hS]
    congr 1
    funext s1
    exact ih s1

/-- One unfolding of `addPreservedGUID`, with the three nested loops read as one run
over the targets of the summary list. -/
theorem addPreservedGUID_succ (Index : ModuleSummaryIndex) (fuel : Nat) (P : GUIDSet)
    (G : GUID) :
    addPreservedGUID Index (fuel + 1) P G =
      if G ∈ P then some P
      else match Index.findGlobalValueSummaryList G with
        | none => some (insert G P)
        | some L => visitAll Index fuel (insert G P) (L.flatMap edgeTargets) := by
  rw [addPreservedGUID]
  split
  · rfl
  · cases Index.findGlobalValueSummaryList G with
    | none => rfl
    | some L =>
      exact nestedLoops_eq (addPreservedGUID Index fuel) L (insert G P)

theorem step_iff_mem_targets (Index : ModuleSummaryIndex) (G H : GUID) :
    Step Index G H ↔
      ∃ L, Index.findGlobalValueSummaryList G = some L ∧ H ∈ L.flatMap edgeTargets := by
  unfold Step
  constructor
  · rintro ⟨L, hL, S, hS, h⟩
    refine ⟨L, hL, List.mem_flatMap.mpr ⟨S, hS, ?_⟩⟩
    unfold edgeTargets
    rcases h with ⟨Ref, hRef, rfl⟩ | ⟨FS, hFS, h⟩
    · exact List.mem_append_left _ (List.mem_map_of_mem _ hRef)
    · apply List.mem_append_right
      rw [hFS]
      rcases h with ⟨Call, hCall, rfl⟩ | hT
      · exact List.mem_append_left _
          (List.mem_map_of_mem (fun Call => Call.1.targetGUID) hCall)
      · exact List.mem_append_right _ hT
  · rintro ⟨L, hL, h⟩
    obtain ⟨S, hS, hH⟩ := List.mem_flatMap.mp h
    refine ⟨L, hL, S, hS, ?_⟩
    unfold edgeTargets at hH
    rcases List.mem_append.mp hH with hRef | hRest
    · obtain ⟨Ref, hRef1, rfl⟩ := List.mem_map.mp hRef
      exact Or.inl ⟨Ref, hRef1, rfl⟩
    · right
      cases hK : S.Kind with
      | FunctionKind FS =>
        rw [hK] at hRest
        refine ⟨FS, rfl, ?_⟩
        rcases List.mem_append.mp hRest with hCall | hT
        · obtain ⟨Call, hCall1, rfl⟩ := List.mem_map.mp hCall
          exact Or.inl ⟨Call, hCall1, rfl⟩
        · exact Or.inr hT
      | AliasKind => rw [hK] at hRest; simp at hRest
      | GlobalVarKind => rw [hK] at hRest; simp at hRest

theorem visitAll_spec_of (Index : ModuleSummaryIndex) (fuel : Nat)
    (ih : ∀ P G Q, addPreservedGUID Index fuel P G = some Q → VisitSpec Index P G Q)
    (ts : List GUID) (P Q : GUIDSet) (h : visitAll Index fuel P ts = some Q) :
    VisitAllSpec Index P ts Q := by
  induction ts generalizing P with
  | nil =>
    simp only [visitAll, List.foldlM_nil] at h
    cases h
    exact ⟨Finset.Subset.refl _, by simp, fun x hx => Or.inl hx, fun _ hc => hc⟩
  | cons t rest iht =>
    simp only [visitAll, List.foldlM_cons] at h
    cases h1 : addPreservedGUID Index fuel P t with
    | none => rw [h1] at h; cases h
    | some P1 =>
      rw [h1] at h
      have s1 := ih P t P1 h1
      have s2 := iht P1 h
      refine ⟨s1.mono.trans s2.mono, ?_, ?_, fun X hc => s2.closed X (s1.closed X hc)⟩
      · intro u hu
        rcases List.mem_cons.mp hu with rfl | hu
        · exact s2.mono s1.mem
        · exact s2.mem u hu
      · intro x hx
        rcases s2.sound x hx with hx1 | ⟨u, hu, hr⟩
        · rcases s1.sound x hx1 with hxP | hr
          · exact Or.inl hxP
          · exact Or.inr ⟨t, List.mem_cons_self _ _, hr⟩
        · exact Or.inr ⟨u, List.mem_cons_of_mem _ hu, hr⟩

theorem addPreservedGUID_spec (Index : ModuleSummaryIndex) (fuel : Nat) :
    ∀ P G Q, addPreservedGUID Index fuel P G = some Q → VisitSpec Index P G Q := by
  induction fuel with
  | zero => intro P G Q h; simp [addPreservedGUID] at h
  | succ fuel ih =>
    intro P G Q h
    rw [addPreservedGUID_succ] at h
    by_cases hG : G ∈ P
    · rw [if_pos hG] at h
      cases h
      exact ⟨Finset.Subset.refl _, hG, fun x hx => Or.inl hx, fun _ hc => hc⟩
    · rw [if_neg hG] at h
      cases hL : Index.findGlobalValueSummaryList G with
      | none =>
        rw [hL] at h
        cases h
        refine ⟨Finset.subset_insert _ _, Finset.mem_insert_self _ _, ?_, ?_⟩
        · intro x hx
          rcases Finset.mem_insert.mp hx with rfl | hx
          · exact Or.inr Relation.ReflTransGen.refl
          · exact Or.inl hx
        · intro X hc g hg hgX k hstep
          rcases Finset.mem_insert.mp hg with rfl | hg
          · obtain ⟨L, hL1, _⟩ := hstep
            rw [hL] at hL1
            cases hL1
          · exact Finset.mem_insert_of_mem (hc g hg hgX k hstep)
      | some L =>
        rw [hL] at h
        have s := visitAll_spec_of Index fuel ih _ _ _ h
        have hGQ : G ∈ Q := s.mono (Finset.mem_insert_self _ _)
        refine ⟨(Finset.subset_insert _ _).trans s.mono, hGQ, ?_, ?_⟩
        · intro x hx
          rcases s.sound x hx with hx1 | ⟨t, ht, hr⟩
          · rcases Finset.mem_insert.mp hx1 with rfl | hx1
            · exact Or.inr Relation.ReflTransGen.refl
            · exact Or.inl hx1
          · exact Or.inr (Relation.ReflTransGen.head
              ((step_iff_mem_targets Index G t).mpr ⟨L, hL, ht⟩) hr)
        · intro X hc
          have hc1 : ClosedExcept Index (insert G X) (insert G P) := by
            intro g hg hgX k hstep
            have hne : g ≠ G := fun e => hgX (e ▸ Finset.mem_insert_self _ _)
            have hgP : g ∈ P := (Finset.mem_insert.mp hg).resolve_left hne
            have hgX1 : g ∉ X := fun e => hgX (Finset.mem_insert_of_mem e)
            exact Finset.mem_insert_of_mem (hc g hgP hgX1 k hstep)
          have hc2 := s.closed _ hc1
          intro g hg hgX k hstep
          by_cases hgG : g = G
          · subst hgG
            obtain ⟨L1, hL1, hk⟩ := (step_iff_mem_targets Index g k).mp hstep
            rw [hL] at hL1
            cases hL1
            exact s.mem k hk
          · refine hc2 g hg ?_ k hstep
            intro e
            rcases Finset.mem_insert.mp e with e | e
            · exact hgG e
            · exact hgX e

/-! ## Termination of `addPreservedGUID` -/

theorem unvisited_card_le_length (Index : ModuleSummaryIndex) (P : GUIDSet) :
    (indexKeys Index \ P).card ≤ Index.GlobalValueMap.length := by
  calc (indexKeys Index \ P).card ≤ (indexKeys Index).card :=
        Finset.card_le_card Finset.sdiff_subset
    _ ≤ (Index.GlobalValueMap.map Prod.fst).length := List.toFinset_card_le _
    _ = Index.GlobalValueMap.length := List.length_map _ _

theorem visitAll_returns_of (Index : ModuleSummaryIndex) (fuel : Nat)
    (ih : ∀ P G, (indexKeys Index \ P).card < fuel →
      ∃ Q, addPreservedGUID Index fuel P G = some Q)
    (ts : List GUID) (P : GUIDSet) (hP : (indexKeys Index \ P).card < fuel) :
    ∃ Q, visitAll Index fuel P ts = some Q := by
  induction ts generalizing P with
  | nil => exact ⟨P, rfl⟩
  | cons t rest iht =>
    obtain ⟨P1, h1⟩ := ih P t hP
    have hmono := (addPreservedGUID_spec Index fuel P t P1 h1).mono
    have hle : (indexKeys Index \ P1).card ≤ (indexKeys Index \ P).card :=
      Finset.card_le_card (Finset.sdiff_subset_sdiff (Finset.Subset.refl _) hmono)
    obtain ⟨Q, hQ⟩ := iht P1 (lt_of_le_of_lt hle hP)
    refine ⟨Q, ?_⟩
    simp only [visitAll, List.foldlM_cons, h1]
    exact hQ

theorem addPreservedGUID_returns (Index : ModuleSummaryIndex) (fuel : Nat) :
    ∀ P G, (indexKeys Index \ P).card < fuel →
      ∃ Q, addPreservedGUID Index fuel P G = some Q := by
  induction fuel with
  | zero => intro P G h; exact absurd h (Nat.not_lt_zero _)
  | succ fuel ih =>
    intro P G h
    rw [addPreservedGUID_succ]
    by_cases hG : G ∈ P
    · exact ⟨P, if_pos hG⟩
    · rw [if_neg hG]
      cases hL : Index.findGlobalValueSummaryList G with
      | none => exact ⟨_, rfl⟩
      | some L =>
        apply visitAll_returns_of Index fuel ih
        have hk : G ∈ indexKeys Index \ P :=
          Finset.mem_sdiff.mpr ⟨find_mem_indexKeys Index G L hL, hG⟩
        have hlt : (indexKeys Index \ insert G P).card < (indexKeys Index \ P).card := by
          apply Finset.card_lt_card
          refine ⟨Finset.sdiff_subset_sdiff (Finset.Subset.refl _)
            (Finset.subset_insert _ _), fun hsub => ?_⟩
          have := hsub hk
          exact (Finset.mem_sdiff.mp this).2 (Finset.mem_insert_self _ _)
        omega

theorem visitAll_fuel_succ_of (Index : ModuleSummaryIndex) (fuel : Nat)
    (ih : ∀ P G Q, addPreservedGUID Index fuel P G = some Q →
      addPreservedGUID Index (fuel + 1) P G = some Q)
    (ts : List GUID) (P Q : GUIDSet) (h : visitAll Index fuel P ts = some Q) :
    visitAll Index (fuel + 1) P ts = some Q := by
  induction ts generalizing P with
  | nil => exact h
  | cons t rest iht =>
    simp only [visitAll, List.foldlM_cons] at h ⊢
    cases h1 : addPreservedGUID Index fuel P t with
    | none => rw [h1] at h; cases h
    | some P1 =>
      rw [h1] at h
      rw [ih P t P1 h1]
      exact iht P1 h

theorem addPreservedGUID_fuel_succ (Index : ModuleSummaryIndex) (fuel : Nat) :
    ∀ P G Q, addPreservedGUID Index fuel P G = some Q →
      addPreservedGUID Index (fuel + 1) P G = some Q := by
  induction fuel with
  | zero => intro P G Q h; simp [addPreservedGUID] at h
  | succ fuel ih =>
    intro P G Q h
    rw [addPreservedGUID_succ] at h ⊢
    by_cases hG : G ∈ P
    · rw [if_pos hG] at h ⊢; exact h
    · rw [if_neg hG] at h ⊢
      cases hL : Index.findGlobalValueSummaryList G with
      | none => rw [hL] at h; exact h
      | some L =>
        rw [hL] at h
        exact visitAll_fuel_succ_of Index fuel ih _ _ _ h

theorem addPreservedGUID_fuel_mono (Index : ModuleSummaryIndex) (fuel fuel1 : Nat)
    (hle : fuel ≤ fuel1) (P : GUIDSet) (G : GUID) (Q : GUIDSet)
    (h : addPreservedGUID Index fuel P G = some Q) :
    addPreservedGUID Index fuel1 P G = some Q := by
  induction hle with
  | refl => exact h
  | step _ ih => exact addPreservedGUID_fuel_succ Index _ P G Q ih

/-- With more fuel than the index has entries, `addPreservedGUID` returns, and the
set it returns does not depend on the fuel. -/
theorem addPreservedGUID_total (Index : ModuleSummaryIndex) (P : GUIDSet) (G : GUID) :
    ∃ Q, ∀ fuel, Index.GlobalValueMap.length < fuel →
      addPreservedGUID Index fuel P G = some Q := by
  obtain ⟨Q, hQ⟩ := addPreservedGUID_returns Index (Index.GlobalValueMap.length + 1) P G
    (Nat.lt_succ_of_le (unvisited_card_le_length Index P))
  exact ⟨Q, fun fuel hf => addPreservedGUID_fuel_mono Index _ fuel hf P G Q hQ⟩

/-! ## The loop over the preserved symbols -/

theorem preservedSymbolsLoop_eq (getGUID : String → GUID) (Index : ModuleSummaryIndex)
    (fuel : Nat) (symbols : List String) (P : GUIDSet) :
    preservedSymbolsLoop getGUID Index fuel symbols P =
      visitAll Index fuel P (symbols.map getGUID) := by
  unfold preservedSymbolsLoop visitAll
  rw [List.foldlM_map]

theorem preservedSymbolsLoop_returns (getGUID : String → GUID) (Index : ModuleSummaryIndex)
    (fuel : Nat) (hf : Index.GlobalValueMap.length < fuel) (symbols : List String)
    (P : GUIDSet) : ∃ Q, preservedSymbolsLoop getGUID Index fuel symbols P = some Q := by
  rw [preservedSymbolsLoop_eq]
  exact visitAll_returns_of Index fuel
    (fun P G _ => addPreservedGUID_returns Index fuel P G
      (lt_of_le_of_lt (unvisited_card_le_length Index P) hf))
    _ P (lt_of_le_of_lt (unvisited_card_le_length Index P) hf)

theorem preservedSymbolsLoop_spec (getGUID : String → GUID) (Index : ModuleSummaryIndex)
    (fuel : Nat) (symbols : List String) (P Q : GUIDSet)
    (h : preservedSymbolsLoop getGUID Index fuel symbols P = some Q) :
    VisitAllSpec Index P (symbols.map getGUID) Q := by
  rw [preservedSymbolsLoop_eq] at h
  exact visitAll_spec_of Index fuel (addPreservedGUID_spec Index fuel) _ _ _ h

theorem closed_reachable (Index : ModuleSummaryIndex) (S : GUIDSet)
    (hc : ClosedExcept Index ∅ S) (G H : GUID) (hG : G ∈ S) (hr : Reachable Index G H) :
    H ∈ S := by
  induction hr with
  | refl => exact hG
  | tail _ hstep ih => exact hc _ ih (Finset.not_mem_empty _) _ hstep

/-! ## The logged walk -/

theorem addPreservedGUIDLog_succ (Index : ModuleSummaryIndex) (fuel : Nat) (P : GUIDSet)
    (log : List GUID) (G : GUID) :
    addPreservedGUIDLog Index (fuel + 1) (P, log) G =
      if G ∈ P then some (P, log)
      else match Index.findGlobalValueSummaryList G with
        | none => some (insert G P, log ++ [G])
        | some L => (L.flatMap edgeTargets).foldlM (addPreservedGUIDLog Index fuel)
            (insert G P, log ++ [G]) := by
  rw [addPreservedGUIDLog]
  split
  · rfl
  · cases Index.findGlobalValueSummaryList G with
    | none => rfl
    | some L =>
      exact nestedLoops_eq (addPreservedGUIDLog Index fuel) L (insert G P, log ++ [G])

theorem foldLog_erase_of (Index : ModuleSummaryIndex) (fuel : Nat)
    (ih : ∀ P log G, (addPreservedGUIDLog Index fuel (P, log) G).map Prod.fst =
      addPreservedGUID Index fuel P G)
    (ts : List GUID) (P : GUIDSet) (log : List GUID) :
    (ts.foldlM (addPreservedGUIDLog Index fuel) (P, log)).map Prod.fst =
      visitAll Index fuel P ts := by
  induction ts generalizing P log with
  | nil => rfl
  | cons t rest iht =>
    simp only [visitAll, List.foldlM_cons]
    have h := ih P log t
    cases h1 : addPreservedGUIDLog Index fuel (P, log) t with
    | none =>
      rw [h1] at h
      rw [← h]
      rfl
    | some st =>
      obtain ⟨P1, log1⟩ := st
      rw [h1] at h
      rw [← h]
      exact iht P1 log1

/-- Dropping the log of the logged walk gives `addPreservedGUID`. -/
theorem addPreservedGUIDLog_erase (Index : ModuleSummaryIndex) (fuel : Nat) :
    ∀ P log G, (addPreservedGUIDLog Index fuel (P, log) G).map Prod.fst =
      addPreservedGUID Index fuel P G := by
  induction fuel with
  | zero => intro P log G; rfl
  | succ fuel ih =>
    intro P log G
    rw [addPreservedGUIDLog_succ, addPreservedGUID_succ]
    by_cases hG : G ∈ P
    · rw [if_pos hG, if_pos hG]; rfl
    · rw [if_neg hG, if_neg hG]
      cases Index.findGlobalValueSummaryList G with
      | none => rfl
      | some L => exact foldLog_erase_of Index fuel ih _ _ _

theorem foldLog_spec_of (Index : ModuleSummaryIndex) (fuel : Nat)
    (ih : ∀ P log G Q log1, addPreservedGUIDLog Index fuel (P, log) G = some (Q, log1) →
      ∃ new, LogSpec P log Q log1 new)
    (ts : List GUID) (P : GUIDSet) (log : List GUID) (Q : GUIDSet) (log1 : List GUID)
    (h : ts.foldlM (addPreservedGUIDLog Index fuel) (P, log) = some (Q, log1)) :
    ∃ new, LogSpec P log Q log1 new := by
  induction ts generalizing P log with
  | nil =>
    simp only [List.foldlM_nil] at h
    cases h
    exact ⟨[], by simp, List.nodup_nil, by simp, Finset.Subset.refl _⟩
  | cons t rest iht =>
    simp only [List.foldlM_cons] at h
    cases h1 : addPreservedGUIDLog Index fuel (P, log) t with
    | none => rw [h1] at h; cases h
    | some st =>
      obtain ⟨P1, l1⟩ := st
      rw [h1] at h
      obtain ⟨n1, s1⟩ := ih P log t P1 l1 h1
      obtain ⟨n2, s2⟩ := iht P1 l1 h
      refine ⟨n1 ++ n2, ?_, ?_, ?_, s1.mono.trans s2.mono⟩
      · rw [s2.eq, s1.eq, List.append_assoc]
      · refine List.Nodup.append s1.nodup s2.nodup ?_
        intro x hx1 hx2
        exact ((s2.mem x).mp hx2).2 ((s1.mem x).mp hx1).1
      · intro x
        rw [List.mem_append, s1.mem, s2.mem]
        constructor
        · rintro (⟨h1Q, hP⟩ | ⟨hQ, hP1⟩)
          · exact ⟨s2.mono h1Q, hP⟩
          · exact ⟨hQ, fun hP => hP1 (s1.mono hP)⟩
        · rintro ⟨hQ, hP⟩
          by_cases hx : x ∈ P1
          · exact Or.inl ⟨hx, hP⟩
          · exact Or.inr ⟨hQ, hx⟩

theorem addPreservedGUIDLog_spec (Index : ModuleSummaryIndex) (fuel : Nat) :
    ∀ P log G Q log1, addPreservedGUIDLog Index fuel (P, log) G = some (Q, log1) →
      ∃ new, LogSpec P log Q log1 new := by
  induction fuel with
  | zero => intro P log G Q log1 h; simp [addPreservedGUIDLog] at h
  | succ fuel ih =>
    intro P log G Q log1 h
    rw [addPreservedGUIDLog_succ] at h
    by_cases hG : G ∈ P
    · rw [if_pos hG] at h
      cases h
      exact ⟨[], by simp, List.nodup_nil, by simp, Finset.Subset.refl _⟩
    · rw [if_neg hG] at h
      cases hL : Index.findGlobalValueSummaryList G with
      | none =>
        rw [hL] at h
        cases h
        refine ⟨[G], rfl, List.nodup_singleton G, ?_, Finset.subset_insert _ _⟩
        intro x
        rw [List.mem_singleton, Finset.mem_insert]
        constructor
        · rintro rfl; exact ⟨Or.inl rfl, hG⟩
        · rintro ⟨h1 | h1, h2⟩
          · exact h1
          · exact absurd h1 h2
      | some L =>
        rw [hL] at h
        obtain ⟨n, s⟩ := foldLog_spec_of Index fuel ih _ _ _ _ _ h
        have hGn : G ∉ n := fun hn => ((s.mem G).mp hn).2 (Finset.mem_insert_self _ _)
        refine ⟨G :: n, ?_, List.nodup_cons.mpr ⟨hGn, s.nodup⟩, ?_,
          (Finset.subset_insert _ _).trans s.mono⟩
        · rw [s.eq, List.append_assoc]; rfl
        · intro x
          rw [List.mem_cons, s.mem, Finset.mem_insert]
          constructor
          · rintro (rfl | ⟨hQ, hnot⟩)
            · exact ⟨s.mono (Finset.mem_insert_self _ _), hG⟩
            · exact ⟨hQ, fun hP => hnot (Or.inr hP)⟩
          · rintro ⟨hQ, hP⟩
            by_cases hx : x = G
            · exact Or.inl hx
            · exact Or.inr ⟨hQ, fun hh => hh.elim hx hP⟩

/-! ## Claims on the reachability walk -/

/-- C1: with more fuel than the index has entries, the loop of
`LLVMRustCreateThinLTOData` over the preserved symbols, started from the empty set,
returns a set whose members are exactly the identities reachable in zero or more steps
from the GUID of some root; every root's GUID is in it, with or without a summary; and
in the example of the spec (`main` calls `foo`, `foo` calls `bar`, `bar` defined twice,
roots `main`) the set is `main`, `foo`, `bar`. -/
theorem C1_preserved_set_is_reachable_closure :
    (∀ (getGUID : String → GUID) (Index : ModuleSummaryIndex)
        (preserved_symbols : List String) (fuel : Nat),
        Index.GlobalValueMap.length < fuel →
        ∃ S, preservedSymbolsLoop getGUID Index fuel preserved_symbols ∅ = some S ∧
          (∀ H, H ∈ S ↔ ∃ symbol ∈ preserved_symbols, Reachable Index (getGUID symbol) H) ∧
          (∀ symbol ∈ preserved_symbols, getGUID symbol ∈ S)) ∧
    preservedSymbolsLoop exampleGUID exampleIndex 4 ["main"] ∅ =
      some {exampleGUID "main", exampleGUID "foo", exampleGUID "bar"} := by
  constructor
  · intro getGUID Index symbols fuel hf
    obtain ⟨S, hS⟩ := preservedSymbolsLoop_returns getGUID Index fuel hf symbols ∅
    have s := preservedSymbolsLoop_spec getGUID Index fuel symbols ∅ S hS
    have hroot : ∀ symbol ∈ symbols, getGUID symbol ∈ S :=
      fun symbol hsym => s.mem _ (List.mem_map_of_mem getGUID hsym)
    have hclosed : ClosedExcept Index ∅ S :=
      s.closed ∅ (fun g hg => absurd hg (Finset.not_mem_empty g))
    refine ⟨S, hS, fun H => ⟨fun hH => ?_, ?_⟩, hroot⟩
    · rcases s.sound H hH with h0 | ⟨t, ht, hr⟩
      · exact absurd h0 (Finset.not_mem_empty H)
      · obtain ⟨symbol, hsym, rfl⟩ := List.mem_map.mp ht
        exact ⟨symbol, hsym, hr⟩
    · rintro ⟨symbol, hsym, hr⟩
      exact closed_reachable Index S hclosed _ H (hroot symbol hsym) hr
  · exact (by decide : preservedSymbolsLoop exampleGUID exampleIndex 4 ["main"] ∅ =
      some {3, 2, 1}).trans (congrArg some (by decide))

/-- Witness of C1 at the example index with root `main` and fuel 4. -/
theorem C1_preserved_set_is_reachable_closure_witness :
    exampleIndex.GlobalValueMap.length < 4 ∧
    ∃ S, preservedSymbolsLoop exampleGUID exampleIndex 4 ["main"] ∅ = some S ∧
      (∀ H, H ∈ S ↔ ∃ symbol ∈ ["main"], Reachable exampleIndex (exampleGUID symbol) H) ∧
      (∀ symbol ∈ ["main"], exampleGUID symbol ∈ S) :=
  ⟨by decide,
    C1_preserved_set_is_reachable_closure.1 exampleGUID exampleIndex ["main"] 4 (by decide)⟩

/-- C2: with more fuel than the index has entries, the preserved set that the root loop
returns from the empty set is closed under the edge relations: for every identity in
it and every summary of that identity, every reference target is in the set, and for a
function summary every call target and every type-test identity is in the set. -/
theorem C2_preserved_set_closed (getGUID : String → GUID) (Index : ModuleSummaryIndex)
    (preserved_symbols : List String) (fuel : Nat)
    (hf : Index.GlobalValueMap.length < fuel) :
    ∃ S, preservedSymbolsLoop getGUID Index fuel preserved_symbols ∅ = some S ∧
      ∀ G ∈ S, ∀ SummaryList, Index.findGlobalValueSummaryList G = some SummaryList →
        ∀ Summary ∈ SummaryList,
          (∀ Ref ∈ Summary.RefEdgeList, Ref.targetGUID ∈ S) ∧
          (∀ FS, Summary.Kind = SummaryKind.FunctionKind FS →
            (∀ Call ∈ FS.CallGraphEdgeList, Call.1.targetGUID ∈ S) ∧
            (∀ TypeTest ∈ FS.TypeTests, TypeTest ∈ S)) := by
  obtain ⟨S, hS⟩ := preservedSymbolsLoop_returns getGUID Index fuel hf preserved_symbols ∅
  have s := preservedSymbolsLoop_spec getGUID Index fuel preserved_symbols ∅ S hS
  have hclosed : ClosedExcept Index ∅ S :=
    s.closed ∅ (fun g hg => absurd hg (Finset.not_mem_empty g))
  refine ⟨S, hS, fun G hG L hL Summary hSum => ⟨fun Ref hRef => ?_, fun FS hFS => ⟨?_, ?_⟩⟩⟩
  · exact hclosed G hG (Finset.not_mem_empty G) _
      ⟨L, hL, Summary, hSum, Or.inl ⟨Ref, hRef, rfl⟩⟩
  · intro Call hCall
    exact hclosed G hG (Finset.not_mem_empty G) _
      ⟨L, hL, Summary, hSum, Or.inr ⟨FS, hFS, Or.inl ⟨Call, hCall, rfl⟩⟩⟩
  · intro TypeTest hT
    exact hclosed G hG (Finset.not_mem_empty G) _
      ⟨L, hL, Summary, hSum, Or.inr ⟨FS, hFS, Or.inr hT⟩⟩

/-- Witness of C2 at the example index with root `main` and fuel 4. -/
theorem C2_preserved_set_closed_witness :
    exampleIndex.GlobalValueMap.length < 4 ∧
    ∃ S, preservedSymbolsLoop exampleGUID exampleIndex 4 ["main"] ∅ = some S ∧
      ∀ G ∈ S, ∀ SummaryList,
        exampleIndex.findGlobalValueSummaryList G = some SummaryList →
        ∀ Summary ∈ SummaryList,
          (∀ Ref ∈ Summary.RefEdgeList, Ref.targetGUID ∈ S) ∧
          (∀ FS, Summary.Kind = SummaryKind.FunctionKind FS →
            (∀ Call ∈ FS.CallGraphEdgeList, Call.1.targetGUID ∈ S) ∧
            (∀ TypeTest ∈ FS.TypeTests, TypeTest ∈ S)) :=
  ⟨by decide, C2_preserved_set_closed exampleGUID exampleIndex ["main"] 4 (by decide)⟩

/-- C3: on every index (cycles and self-references included), for every initial
preserved set and starting GUID, `addPreservedGUID` returns, with the same set for every
fuel above the number of index entries; a GUID already in `Preserved` is returned from
at once, with the set and the log unchanged, whatever the fuel; and the calls that get
past the guard are, without repetition, the identities that the run adds to the set,
so that no summary list is expanded twice. -/
theorem C3_addPreservedGUID_terminates (Index : ModuleSummaryIndex) (Preserved : GUIDSet)
    (G : GUID) :
    (∃ Q, ∀ fuel, Index.GlobalValueMap.length < fuel →
      addPreservedGUID Index fuel Preserved G = some Q ∧
      ∀ log, ∃ new, addPreservedGUIDLog Index fuel (Preserved, log) G =
          some (Q, log ++ new) ∧
        new.Nodup ∧ ∀ x, x ∈ new ↔ x ∈ Q ∧ x ∉ Preserved) ∧
    (G ∈ Preserved → ∀ fuel log,
      addPreservedGUID Index (fuel + 1) Preserved G = some Preserved ∧
      addPreservedGUIDLog Index (fuel + 1) (Preserved, log) G = some (Preserved, log)) := by
  constructor
  · obtain ⟨Q, hQ⟩ := addPreservedGUID_total Index Preserved G
    refine ⟨Q, fun fuel hf => ⟨hQ fuel hf, fun log => ?_⟩⟩
    have he := addPreservedGUIDLog_erase Index fuel Preserved log G
    rw [hQ fuel hf] at he
    cases h1 : addPreservedGUIDLog Index fuel (Preserved, log) G with
    | none => rw [h1] at he; cases he
    | some st =>
      obtain ⟨Q1, log1⟩ := st
      rw [h1] at he
      simp only [Option.map_some', Option.some.injEq] at he
      subst he
      obtain ⟨new, s⟩ := addPreservedGUIDLog_spec Index fuel Preserved log G Q1 log1 h1
      exact ⟨new, by rw [s.eq], s.nodup, s.mem⟩
  · intro hG fuel log
    rw [addPreservedGUID_succ, addPreservedGUIDLog_succ, if_pos hG, if_pos hG]
    exact ⟨rfl, rfl⟩

/-- Witness of C3 on an index with a self-reference and a two-element cycle. -/
theorem C3_addPreservedGUID_terminates_witness :
    (∃ Q, (exampleCycle.GlobalValueMap.length < 3 ∧
      addPreservedGUID exampleCycle 3 ∅ 1 = some Q) ∧
      ∃ new, addPreservedGUIDLog exampleCycle 3 (∅, []) 1 = some (Q, [] ++ new) ∧
        new.Nodup ∧ ∀ x, x ∈ new ↔ x ∈ Q ∧ x ∉ (∅ : GUIDSet)) ∧
    ((1 : GUID) ∈ ({1} : GUIDSet) ∧
      addPreservedGUID exampleCycle (0 + 1) {1} 1 = some {1} ∧
      addPreservedGUIDLog exampleCycle (0 + 1) ({1}, [5]) 1 = some ({1}, [5])) := by
  refine ⟨?_, by decide, (C3_addPreservedGUID_terminates exampleCycle {1} 1).2 (by decide) 0 [5]⟩
  obtain ⟨Q, hQ⟩ := (C3_addPreservedGUID_terminates exampleCycle ∅ 1).1
  exact ⟨Q, ⟨by decide, (hQ 3 (by decide)).1⟩, (hQ 3 (by decide)).2 []⟩


/-! ## Claims on `getFirstDefinitionForLinker` and the prevailing copy -/

theorem find?_first {α : Type} (p : α → Bool) (L : List α) (i : Nat) (s : α)
    (hi : L[i]? = some s) (hp : p s = true)
    (hbefore : ∀ j t, j < i → L[j]? = some t → p t = false) : L.find? p = some s := by
  induction L generalizing i with
  | nil => simp at hi
  | cons a rest ih =>
    cases i with
    | zero =>
      simp only [List.getElem?_cons_zero, Option.some.injEq] at hi
      subst hi
      simp [List.find?, hp]
    | succ i =>
      have ha : p a = false := hbefore 0 a (Nat.succ_pos i) (by simp)
      simp only [List.find?, ha]
      refine ih i (by simpa using hi) ?_
      intro j t hj ht
      exact hbefore (j + 1) t (Nat.succ_lt_succ hj) (by simpa using ht)

theorem find?_none_of_forall {α : Type} (p : α → Bool) (L : List α)
    (h : ∀ s ∈ L, p s = false) : L.find? p = none := by
  rw [List.find?_eq_none]
  intro s hs
  simp [h s hs]

/-- C4: `getFirstDefinitionForLinker` returns the summary at the least position whose
linkage is neither available-externally nor weak-for-linker, when there is one;
otherwise the summary at the least position whose linkage is not
available-externally, when there is one; otherwise null. On the two weak definitions
of `bar` of the example it returns the first one. -/
theorem C4_getFirstDefinitionForLinker_rule :
    (∀ (L : GlobalValueSummaryList) (i : Nat) (S : GlobalValueSummary),
      L[i]? = some S →
      (isAvailableExternallyLinkage S.linkage = false ∧ isWeakForLinker S.linkage = false) →
      (∀ j T, j < i → L[j]? = some T →
        ¬ (isAvailableExternallyLinkage T.linkage = false ∧
          isWeakForLinker T.linkage = false)) →
      getFirstDefinitionForLinker L = some S) ∧
    (∀ (L : GlobalValueSummaryList) (i : Nat) (S : GlobalValueSummary),
      (∀ T ∈ L, ¬ (isAvailableExternallyLinkage T.linkage = false ∧
        isWeakForLinker T.linkage = false)) →
      L[i]? = some S → isAvailableExternallyLinkage S.linkage = false →
      (∀ j T, j < i → L[j]? = some T → isAvailableExternallyLinkage T.linkage = true) →
      getFirstDefinitionForLinker L = some S) ∧
    (∀ (L : GlobalValueSummaryList),
      (∀ T ∈ L, isAvailableExternallyLinkage T.linkage = true) →
      getFirstDefinitionForLinker L = none) ∧
    getFirstDefinitionForLinker exampleBar = exampleBar[0]? := by
  refine ⟨?_, ?_, ?_, by decide⟩
  · intro L i S hi hS hbefore
    have h := find?_first (fun Summary : GlobalValueSummary =>
      !isAvailableExternallyLinkage Summary.linkage && !isWeakForLinker Summary.linkage)
      L i S hi (by simp [hS.1, hS.2]) (by
        intro j T hj hT
        have := hbefore j T hj hT
        cases h1 : isAvailableExternallyLinkage T.linkage <;>
          cases h2 : isWeakForLinker T.linkage <;> simp_all)
    simp only [getFirstDefinitionForLinker, h]
  · intro L i S hnone hi hS hbefore
    have h1 := find?_none_of_forall (fun Summary : GlobalValueSummary =>
      !isAvailableExternallyLinkage Summary.linkage && !isWeakForLinker Summary.linkage)
      L (by
        intro T hT
        have := hnone T hT
        cases h1 : isAvailableExternallyLinkage T.linkage <;>
          cases h2 : isWeakForLinker T.linkage <;> simp_all)
    have h2 := find?_first (fun Summary : GlobalValueSummary =>
      !isAvailableExternallyLinkage Summary.linkage) L i S hi (by simp [hS]) (by
        intro j T hj hT
        simp [hbefore j T hj hT])
    simp only [getFirstDefinitionForLinker, h1, h2]
  · intro L hall
    have h1 := find?_none_of_forall (fun Summary : GlobalValueSummary =>
      !isAvailableExternallyLinkage Summary.linkage && !isWeakForLinker Summary.linkage)
      L (by intro T hT; simp [hall T hT])
    have h2 := find?_none_of_forall (fun Summary : GlobalValueSummary =>
      !isAvailableExternallyLinkage Summary.linkage) L (by intro T hT; simp [hall T hT])
    simp only [getFirstDefinitionForLinker, h1, h2]

/-- Witness of C4: a list with a strong definition at position 2, a list whose first
definition for the linker is at position 1, and a list of available-externally copies. -/
theorem C4_getFirstDefinitionForLinker_rule_witness :
    getFirstDefinitionForLinker exampleMixed =
      some (exampleFunction 303 "m2" LinkageTypes.ExternalLinkage []) ∧
    getFirstDefinitionForLinker exampleLinkOnce =
      some (exampleFunction 312 "m1" LinkageTypes.LinkOnceODRLinkage []) ∧
    getFirstDefinitionForLinker exampleAvailable = none := by
  refine ⟨C4_getFirstDefinitionForLinker_rule.1 exampleMixed 2 _ (by decide) (by decide) ?_,
    C4_getFirstDefinitionForLinker_rule.2.1 exampleLinkOnce 1 _ ?_ (by decide) (by decide) ?_,
    C4_getFirstDefinitionForLinker_rule.2.2.1 exampleAvailable ?_⟩
  · intro j T hj hT
    interval_cases j
    · simp only [exampleMixed, List.getElem?_cons_zero, Option.some.injEq] at hT
      subst hT
      decide
    · simp only [exampleMixed, List.getElem?_cons_succ, List.getElem?_cons_zero,
        Option.some.injEq] at hT
      subst hT
      decide
  · intro T hT
    simp only [exampleLinkOnce, List.mem_cons, List.mem_singleton, List.not_mem_nil,
      or_false] at hT
    rcases hT with rfl | rfl | rfl <;> decide
  · intro j T hj hT
    interval_cases j
    simp only [exampleLinkOnce, List.getElem?_cons_zero, Option.some.injEq] at hT
    subst hT
    decide
  · intro T hT
    simp only [exampleAvailable, List.mem_cons, List.mem_singleton, List.not_mem_nil,
      or_false] at hT
    rcases hT with rfl | rfl <;> decide

theorem AssocMap.find_filter_ne {κ α : Type} [DecidableEq κ] (m : AssocMap κ α) (k k1 : κ)
    (hk : k ≠ k1) :
    AssocMap.find (m.filter (fun e => decide (e.1 ≠ k))) k1 = AssocMap.find m k1 := by
  induction m with
  | nil => rfl
  | cons e rest ih =>
    obtain ⟨k2, v2⟩ := e
    by_cases h2 : k2 = k
    · have hne : k2 ≠ k1 := fun e => hk (h2 ▸ e)
      simp only [List.filter, h2, ne_eq, not_true_eq_false, decide_False]
      rw [ih]
      subst h2
      simp [AssocMap.find, hne]
    · simp only [List.filter, ne_eq, h2, not_false_eq_true, decide_True, AssocMap.find]
      rw [ih]

theorem AssocMap.find_set {κ α : Type} [DecidableEq κ] (m : AssocMap κ α) (k k1 : κ)
    (v : α) :
    AssocMap.find (AssocMap.set m k v) k1 = if k = k1 then some v else AssocMap.find m k1 := by
  unfold AssocMap.set
  by_cases hk : k = k1
  · simp [AssocMap.find, hk]
  · simp only [AssocMap.find, hk, if_false]
    exact AssocMap.find_filter_ne m k k1 hk

theorem prevailingCopy_fold_isSome (entries : AssocMap GUID GlobalValueSummaryList)
    (pc : AssocMap GUID (Option GlobalValueSummary)) (G : GUID)
    (h : (AssocMap.find pc G).isSome = true ∨ ∃ e ∈ entries, e.1 = G ∧ e.2.length > 1) :
    (AssocMap.find (entries.foldl
      (fun PrevailingCopy I =>
        if I.2.length > 1 then
          AssocMap.set PrevailingCopy I.1 (getFirstDefinitionForLinker I.2)
        else PrevailingCopy) pc) G).isSome = true := by
  induction entries generalizing pc with
  | nil =>
    rcases h with h | ⟨e, he, _⟩
    · exact h
    · cases he
  | cons I rest ih =>
    rw [List.foldl_cons]
    apply ih
    rcases h with h | ⟨e, he, hG, hlen⟩
    · left
      split
      · rw [AssocMap.find_set]
        split
        · rfl
        · exact h
      · exact h
    · rcases List.mem_cons.mp he with rfl | he
      · left
        rw [if_pos hlen, AssocMap.find_set, if_pos hG]
        rfl
      · exact Or.inr ⟨e, he, hG, hlen⟩

/-- C5: for an identity of the index whose summaries are distinct objects, at most one
position of its summary list holds a summary that `isPrevailing`, with the
`PrevailingCopy` built by `LLVMRustCreateThinLTOData`, accepts. -/
theorem C5_at_most_one_prevailing (Index : ModuleSummaryIndex) (G : GUID)
    (L : GlobalValueSummaryList) (hL : Index.findGlobalValueSummaryList G = some L)
    (hptr : (L.map GlobalValueSummary.addr).Nodup)
    (i j : Nat) (S T : GlobalValueSummary) (hi : L[i]? = some S) (hj : L[j]? = some T)
    (hS : isPrevailing (buildPrevailingCopy Index) G (some S) = true)
    (hT : isPrevailing (buildPrevailingCopy Index) G (some T) = true) : i = j := by
  have hilt : i < L.length := (List.getElem?_eq_some.mp hi).1
  have hjlt : j < L.length := (List.getElem?_eq_some.mp hj).1
  cases hpc : AssocMap.find (buildPrevailingCopy Index) G with
  | none =>
    have hlen : ¬ L.length > 1 := by
      intro hlen
      have := prevailingCopy_fold_isSome Index.GlobalValueMap [] G
        (Or.inr ⟨(G, L), AssocMap.find_some_mem _ _ _ hL, rfl, hlen⟩)
      unfold buildPrevailingCopy at hpc
      rw [hpc] at this
      cases this
    omega
  | some Prevailing =>
    simp only [isPrevailing, hpc, samePointer, decide_eq_true_eq] at hS hT
    have haddr : S.addr = T.addr := by
      have := hS.symm.trans hT
      simpa using this
    apply List.getElem?_inj (by simpa using hilt) hptr
    rw [List.getElem?_map, List.getElem?_map, hi, hj]
    simp [haddr]

/-- Witness of C5 on the example index: the first definition of `bar` is accepted, at
position 0, and the second one is not. -/
theorem C5_at_most_one_prevailing_witness :
    (exampleIndex.findGlobalValueSummaryList 3 = some exampleBar ∧
      (exampleBar.map GlobalValueSummary.addr).Nodup ∧
      isPrevailing (buildPrevailingCopy exampleIndex) 3 exampleBar[0]? = true ∧
      isPrevailing (buildPrevailingCopy exampleIndex) 3 exampleBar[1]? = false) ∧
    0 = 0 :=
  ⟨by decide,
    C5_at_most_one_prevailing exampleIndex 3 exampleBar (by decide) (by decide) 0 0
      (exampleFunction 103 "m1" LinkageTypes.WeakAnyLinkage [])
      (exampleFunction 103 "m1" LinkageTypes.WeakAnyLinkage [])
      (by decide) (by decide) (by decide) (by decide)⟩

/-! ## Claims on `isExported` -/

/-- C6: for every module identifier, with or without an export list, `isExported`
is true on every GUID of `GUIDPreservedSymbols`; hence a step that gives internal
linkage only to summaries on which `isExported` is false leaves every summary of a
preserved GUID that is not internal not internal. -/
theorem C6_preserved_never_internalized (Ret : LLVMRustThinLTOData)
    (ModuleIdentifier : String) (G : GUID) (hG : G ∈ Ret.GUIDPreservedSymbols) :
    isExported Ret ModuleIdentifier G = true ∧
    ∀ (step : (String → GUID → Bool) → GUID → GlobalValueSummary → GlobalValueSummary),
      (∀ isExp g S, S.linkage ≠ LinkageTypes.InternalLinkage →
        (step isExp g S).linkage = LinkageTypes.InternalLinkage →
        isExp S.ModulePath g = false) →
      ∀ S, S.linkage ≠ LinkageTypes.InternalLinkage →
        (step (isExported Ret) G S).linkage ≠ LinkageTypes.InternalLinkage := by
  have hexp : ∀ M, isExported Ret M G = true := by
    intro M
    simp [isExported, hG]
  refine ⟨hexp ModuleIdentifier, fun step hstep S hS hint => ?_⟩
  have := hstep (isExported Ret) G S hS hint
  rw [hexp] at this
  cases this

/-- Witness of C6: GUID 1 is preserved in the example data; module `m1` has no export
list, module `m0` has one without 1, and the example step leaves `main` external. -/
theorem C6_preserved_never_internalized_witness :
    (1 : GUID) ∈ exampleData.GUIDPreservedSymbols ∧
    isExported exampleData "m1" 1 = true ∧
    (exampleInternalize (isExported exampleData) 1
      (exampleFunction 101 "m2" LinkageTypes.ExternalLinkage [2])).linkage ≠
        LinkageTypes.InternalLinkage ∧
    (exampleInternalize (isExported exampleData) 3
      (exampleFunction 103 "m1" LinkageTypes.WeakAnyLinkage [])).linkage =
        LinkageTypes.InternalLinkage := by
  have h := C6_preserved_never_internalized exampleData "m1" 1 (by decide)
  refine ⟨by decide, h.1, h.2 exampleInternalize ?_ _ (by decide), by decide⟩
  intro isExp g S hS hint
  unfold exampleInternalize at hint
  cases hexp : isExp S.ModulePath g with
  | false => rfl
  | true =>
    rw [hexp, if_pos rfl] at hint
    exact absurd hint hS

/-- C7: `isExported(M, G)` is true exactly when `ExportLists` has an entry for `M`
that contains `G`, or `G` is in `GUIDPreservedSymbols`; it is false for a GUID that is
not preserved when `M` has no entry. -/
theorem C7_isExported_iff (Ret : LLVMRustThinLTOData) (ModuleIdentifier : String)
    (G : GUID) :
    (isExported Ret ModuleIdentifier G = true ↔
      (∃ ExportList, AssocMap.find Ret.ExportLists ModuleIdentifier = some ExportList ∧
        G ∈ ExportList) ∨ G ∈ Ret.GUIDPreservedSymbols) ∧
    (AssocMap.find Ret.ExportLists ModuleIdentifier = none →
      G ∉ Ret.GUIDPreservedSymbols → isExported Ret ModuleIdentifier G = false) := by
  unfold isExported
  cases h : AssocMap.find Ret.ExportLists ModuleIdentifier with
  | none => simp
  | some ExportList => simp

/-- Witness of C7: module `m1` has no export list in the example data and GUID 2 is
not preserved, so `m1` does not export 2, while `m0`, whose list has 2, does. -/
theorem C7_isExported_iff_witness :
    AssocMap.find exampleData.ExportLists "m1" = none ∧
    (2 : GUID) ∉ exampleData.GUIDPreservedSymbols ∧
    isExported exampleData "m1" 2 = false ∧
    isExported exampleData "m0" 2 = true :=
  ⟨by decide, by decide,
    (C7_isExported_iff exampleData "m1" 2).2 (by decide) (by decide),
    (C7_isExported_iff exampleData "m0" 2).1.mpr (Or.inl ⟨{2}, by decide, by decide⟩)⟩

/-! ## Claims on the merge loop of `LLVMRustCreateThinLTOData` -/

/-- The merge loop over modules that all decode: it goes on with the rest of the
modules from the state in which the decoded indexes have been merged in order, each
with its position as module id, and the buffers have been stored in order. -/
theorem mergeModules_decoded (llvm : LLVM) (pre : List LLVMRustThinLTOModule)
    (ds : List ModuleSummaryIndex)
    (hdec : List.Forall₂ (fun m d => llvm.create m.mem_buffer = Except.ok d) pre ds)
    (i : Nat) (Ret : LLVMRustThinLTOData) :
    ∃ R, (∀ post, mergeModules llvm (pre ++ post) i Ret =
        mergeModules llvm post (i + pre.length) R) ∧
      R.Index = (ds.enumFrom i).foldl (fun Index p => llvm.mergeFrom Index p.2 p.1) Ret.Index ∧
      R.ModuleMap = pre.foldl (fun M m => AssocMap.set M m.identifier m.mem_buffer)
        Ret.ModuleMap := by
  induction hdec generalizing i Ret with
  | nil => exact ⟨Ret, by simp, rfl, rfl⟩
  | @cons m d pre ds hm _ ih =>
    obtain ⟨R, hR, hI, hM⟩ := ih (i + 1)
      { Index := llvm.mergeFrom Ret.Index d i,
        ModuleMap := AssocMap.set Ret.ModuleMap m.identifier m.mem_buffer,
        GUIDPreservedSymbols := Ret.GUIDPreservedSymbols,
        ImportLists := Ret.ImportLists,
        ExportLists := Ret.ExportLists,
        ModuleToDefinedGVSummaries := Ret.ModuleToDefinedGVSummaries }
    refine ⟨R, ?_, ?_, ?_⟩
    · intro post
      rw [List.cons_append, mergeModules]
      simp only [hm]
      rw [hR, List.length_cons]
      congr 1
      omega
    · rw [hI]; rfl
    · rw [hM]; rfl

theorem forall₂_of_all_decode (llvm : LLVM) (modules : List LLVMRustThinLTOModule)
    (h : ∀ m ∈ modules, ∃ d, llvm.create m.mem_buffer = Except.ok d) :
    ∃ ds, List.Forall₂ (fun m d => llvm.create m.mem_buffer = Except.ok d) modules ds := by
  induction modules with
  | nil => exact ⟨[], List.Forall₂.nil⟩
  | cons m rest ih =>
    obtain ⟨d, hd⟩ := h m (List.mem_cons_self _ _)
    obtain ⟨ds, hds⟩ := ih (fun m1 h1 => h m1 (List.mem_cons_of_mem _ h1))
    exact ⟨d :: ds, List.Forall₂.cons hd hds⟩

theorem mergeModules_error_mem (llvm : LLVM) (modules : List LLVMRustThinLTOModule)
    (i : Nat) (Ret : LLVMRustThinLTOData) (Err : String)
    (h : mergeModules llvm modules i Ret = Except.error Err) :
    ∃ m ∈ modules, llvm.create m.mem_buffer = Except.error Err := by
  induction modules generalizing i Ret with
  | nil => simp [mergeModules] at h
  | cons m rest ih =>
    rw [mergeModules] at h
    cases hm : llvm.create m.mem_buffer with
    | error e =>
      simp only [hm] at h
      cases h
      exact ⟨m, List.mem_cons_self _ _, hm⟩
    | ok d =>
      simp only [hm] at h
      obtain ⟨m1, h1, h2⟩ := ih _ _ h
      exact ⟨m1, List.mem_cons_of_mem _ h1, h2⟩

/-- C8: when the first `k` input modules decode, the merge loop reaches, after them,
a state whose index is the result of merging their decoded summaries one after the
other in input order, the summary at position `i` with module id `i`; the loop
over all modules goes on from that state at iteration `k`. -/
theorem C8_module_rank_is_position (llvm : LLVM) (modules : List LLVMRustThinLTOModule)
    (k : Nat) (ds : List ModuleSummaryIndex) (Ret : LLVMRustThinLTOData)
    (hk : k ≤ modules.length)
    (hdec : List.Forall₂ (fun module Index => llvm.create module.mem_buffer = Except.ok Index)
      (modules.take k) ds) :
    ∃ Retk, mergeModules llvm (modules.take k) 0 Ret = Except.ok Retk ∧
      Retk.Index = ds.enum.foldl (fun Index p => llvm.mergeFrom Index p.2 p.1) Ret.Index ∧
      (∀ i Index, ds[i]? = some Index → (i, Index) ∈ ds.enum ∧ i < k) ∧
      mergeModules llvm modules 0 Ret = mergeModules llvm (modules.drop k) k Retk := by
  obtain ⟨R, hR, hI, _⟩ := mergeModules_decoded llvm _ ds hdec 0 Ret
  have hlen : (modules.take k).length = k := List.length_take_of_le hk
  have hdslen : ds.length = k := by rw [← hdec.length_eq, hlen]
  refine ⟨R, ?_, hI, ?_, ?_⟩
  · have := hR []
    rw [List.append_nil, mergeModules] at this
    exact this
  · intro i Index hi
    refine ⟨?_, ?_⟩
    · rw [List.mem_iff_getElem?]
      exact ⟨i, by simp [List.enum, List.getElem?_enumFrom, hi]⟩
    · have := (List.getElem?_eq_some.mp hi).1
      omega
  · have := hR (modules.drop k)
    rw [List.take_append_drop, hlen, Nat.zero_add] at this
    exact this

/-- Witness of C8 on three modules that decode: the merged index holds their entries
in input order, and the summaries of module `i` carry the module id `i`. -/
theorem C8_module_rank_is_position_witness :
    3 ≤ exampleModules.length ∧
    (∃ Retk, mergeModules exampleLLVM (exampleModules.take 3) 0 LLVMRustThinLTOData.empty =
        Except.ok Retk ∧
      Retk.Index = exampleDecoded.enum.foldl
        (fun Index p => exampleLLVM.mergeFrom Index p.2 p.1)
        LLVMRustThinLTOData.empty.Index ∧
      (∀ i Index, exampleDecoded[i]? = some Index → (i, Index) ∈ exampleDecoded.enum ∧ i < 3) ∧
      mergeModules exampleLLVM exampleModules 0 LLVMRustThinLTOData.empty =
        mergeModules exampleLLVM (exampleModules.drop 3) 3 Retk) ∧
    (exampleDecoded.enum.foldl (fun Index p => exampleLLVM.mergeFrom Index p.2 p.1)
      LLVMRustThinLTOData.empty.Index).GlobalValueMap.map
        (fun e => (e.1, e.2.map GlobalValueSummary.addr)) =
      [(10, [0]), (20, [1]), (30, [2])] :=
  ⟨by decide,
    C8_module_rank_is_position exampleLLVM exampleModules 3 exampleDecoded
      LLVMRustThinLTOData.empty (by decide)
      (List.Forall₂.cons rfl (List.Forall₂.cons rfl (List.Forall₂.cons rfl List.Forall₂.nil))),
    by decide⟩

theorem LLVMRustCreateThinLTOData_of_error (llvm : LLVM) (fuel : Nat)
    (modules : List LLVMRustThinLTOModule) (preserved_symbols : List String)
    (LastError : Option String) (Err : String)
    (h : mergeModules llvm modules 0 LLVMRustThinLTOData.empty = Except.error Err) :
    LLVMRustCreateThinLTOData llvm fuel modules preserved_symbols LastError =
      some (none, some Err) := by
  simp only [LLVMRustCreateThinLTOData, h, LLVMRustSetLastError]

/-- After a merge loop that returns a state, `LLVMRustCreateThinLTOData` returns a
plan when the fuel exceeds the number of entries of the merged index; the plan has
the module map of that state and the last-error slot is as before. -/
theorem LLVMRustCreateThinLTOData_of_ok (llvm : LLVM) (fuel : Nat)
    (modules : List LLVMRustThinLTOModule) (preserved_symbols : List String)
    (LastError : Option String) (R : LLVMRustThinLTOData)
    (h : mergeModules llvm modules 0 LLVMRustThinLTOData.empty = Except.ok R)
    (hf : R.Index.GlobalValueMap.length < fuel) :
    ∃ Ret, LLVMRustCreateThinLTOData llvm fuel modules preserved_symbols LastError =
      some (some Ret, LastError) ∧ Ret.ModuleMap = R.ModuleMap := by
  obtain ⟨Q, hQ⟩ := preservedSymbolsLoop_returns llvm.getGUID R.Index fuel hf
    preserved_symbols R.GUIDPreservedSymbols
  simp only [LLVMRustCreateThinLTOData, h, hQ]
  exact ⟨_, rfl, rfl⟩

theorem LLVMRustCreateThinLTOData_null (llvm : LLVM) (fuel : Nat)
    (modules : List LLVMRustThinLTOModule) (preserved_symbols : List String)
    (LastError Slot : Option String)
    (h : LLVMRustCreateThinLTOData llvm fuel modules preserved_symbols LastError =
      some (none, Slot)) :
    ∃ Err, mergeModules llvm modules 0 LLVMRustThinLTOData.empty = Except.error Err ∧
      Slot = some Err := by
  cases hm : mergeModules llvm modules 0 LLVMRustThinLTOData.empty with
  | error Err =>
    rw [LLVMRustCreateThinLTOData_of_error llvm fuel modules preserved_symbols LastError Err hm]
      at h
    simp only [Option.some.injEq, Prod.mk.injEq, true_and] at h
    exact ⟨Err, rfl, h.symm⟩
  | ok R =>
    simp only [LLVMRustCreateThinLTOData, hm] at h
    cases hq : preservedSymbolsLoop llvm.getGUID R.Index fuel preserved_symbols
        R.GUIDPreservedSymbols with
    | none => simp [hq] at h
    | some Q => simp [hq] at h

/-- C9: when the modules before `bad` decode and `bad` does not, with error `Err`,
`LLVMRustCreateThinLTOData` returns null with `Err` in the last-error slot, for every
fuel and whatever modules follow `bad` (the same as when none follows); when every
module decodes, it returns a plan for every fuel from some bound on, with the
last-error slot as before; and whenever it returns null, some input module does not
decode and the slot holds that module's error. -/
theorem C9_fails_exactly_on_decode_error (llvm : LLVM) (preserved_symbols : List String)
    (LastError : Option String) :
    (∀ (pre post : List LLVMRustThinLTOModule) (bad : LLVMRustThinLTOModule) (Err : String),
      (∀ m ∈ pre, ∃ d, llvm.create m.mem_buffer = Except.ok d) →
      llvm.create bad.mem_buffer = Except.error Err →
      ∀ fuel,
        LLVMRustCreateThinLTOData llvm fuel (pre ++ bad :: post) preserved_symbols LastError =
          some (none, some Err) ∧
        LLVMRustCreateThinLTOData llvm fuel (pre ++ [bad]) preserved_symbols LastError =
          some (none, some Err)) ∧
    (∀ (modules : List LLVMRustThinLTOModule),
      (∀ m ∈ modules, ∃ d, llvm.create m.mem_buffer = Except.ok d) →
      ∃ fuel0, ∀ fuel, fuel0 ≤ fuel →
        ∃ Ret, LLVMRustCreateThinLTOData llvm fuel modules preserved_symbols LastError =
          some (some Ret, LastError)) ∧
    (∀ (modules : List LLVMRustThinLTOModule) (fuel : Nat) (Slot : Option String),
      LLVMRustCreateThinLTOData llvm fuel modules preserved_symbols LastError =
        some (none, Slot) →
      ∃ m ∈ modules, ∃ Err, llvm.create m.mem_buffer = Except.error Err ∧
        Slot = some Err) := by
  refine ⟨?_, ?_, ?_⟩
  · intro pre post bad Err hpre hbad fuel
    obtain ⟨ds, hds⟩ := forall₂_of_all_decode llvm pre hpre
    obtain ⟨R, hR, _, _⟩ := mergeModules_decoded llvm pre ds hds 0 LLVMRustThinLTOData.empty
    have herr : ∀ rest, mergeModules llvm (pre ++ bad :: rest) 0 LLVMRustThinLTOData.empty =
        Except.error Err := by
      intro rest
      rw [hR, mergeModules]
      simp only [hbad]
    exact ⟨LLVMRustCreateThinLTOData_of_error llvm fuel _ _ _ Err (herr post),
      LLVMRustCreateThinLTOData_of_error llvm fuel _ _ _ Err (herr [])⟩
  · intro modules hall
    obtain ⟨ds, hds⟩ := forall₂_of_all_decode llvm modules hall
    obtain ⟨R, hR, _, _⟩ :=
      mergeModules_decoded llvm modules ds hds 0 LLVMRustThinLTOData.empty
    have hok : mergeModules llvm modules 0 LLVMRustThinLTOData.empty = Except.ok R := by
      have := hR []
      rw [List.append_nil, mergeModules] at this
      exact this
    refine ⟨R.Index.GlobalValueMap.length + 1, fun fuel hf => ?_⟩
    obtain ⟨Ret, hRet, _⟩ := LLVMRustCreateThinLTOData_of_ok llvm fuel modules
      preserved_symbols LastError R hok (by omega)
    exact ⟨Ret, hRet⟩
  · intro modules fuel Slot h
    obtain ⟨Err, hErr, hSlot⟩ := LLVMRustCreateThinLTOData_null llvm fuel modules
      preserved_symbols LastError Slot h
    obtain ⟨m, hm, hc⟩ := mergeModules_error_mem llvm modules 0 _ Err hErr
    exact ⟨m, hm, Err, hc, hSlot⟩

/-- Witness of C9: of four modules the second and the fourth do not decode, and the
call returns null with the error of the second; three modules that decode give a plan. -/
theorem C9_fails_exactly_on_decode_error_witness :
    (LLVMRustCreateThinLTOData exampleLLVM 0 exampleBadModules ["main"] none =
        some (none, some "cannot decode bad") ∧
      LLVMRustCreateThinLTOData exampleLLVM 0
        [{ identifier := "a", data := 10, len := 4 },
         { identifier := "bad", data := 20, len := 0 }] ["main"] none =
        some (none, some "cannot decode bad")) ∧
    (∃ fuel0, ∀ fuel, fuel0 ≤ fuel →
      ∃ Ret, LLVMRustCreateThinLTOData exampleLLVM fuel exampleModules ["main"] none =
        some (some Ret, none)) ∧
    (∃ m ∈ exampleBadModules, ∃ Err,
      exampleLLVM.create m.mem_buffer = Except.error Err ∧
      some "cannot decode bad" = some Err) := by
  have h := C9_fails_exactly_on_decode_error exampleLLVM ["main"] none
  refine ⟨?_, ?_, ?_⟩
  · refine h.1 [{ identifier := "a", data := 10, len := 4 }]
      [{ identifier := "c", data := 30, len := 6 },
       { identifier := "worse", data := 40, len := 0 }]
      { identifier := "bad", data := 20, len := 0 } "cannot decode bad" ?_ rfl 0
    intro m hm
    rw [List.mem_singleton] at hm
    subst hm
    exact ⟨_, rfl⟩
  · refine h.2.1 exampleModules ?_
    intro m hm
    simp only [exampleModules, List.mem_cons, List.mem_singleton, List.not_mem_nil,
      or_false] at hm
    rcases hm with rfl | rfl | rfl <;> exact ⟨_, rfl⟩
  · exact h.2.2 exampleBadModules 0 (some "cannot decode bad")
      (h.1 [{ identifier := "a", data := 10, len := 4 }]
        [{ identifier := "c", data := 30, len := 6 },
         { identifier := "worse", data := 40, len := 0 }]
        { identifier := "bad", data := 20, len := 0 } "cannot decode bad"
        (by
          intro m hm
          rw [List.mem_singleton] at hm
          subst hm
          exact ⟨_, rfl⟩) rfl 0).1

/-! ## Claims on `ModuleMap` -/

theorem storeLoop_find_of_not_mem (ms : List LLVMRustThinLTOModule)
    (M : AssocMap String MemoryBufferRef) (k : String)
    (h : ∀ m ∈ ms, m.identifier ≠ k) :
    AssocMap.find (ms.foldl (fun M m => AssocMap.set M m.identifier m.mem_buffer) M) k =
      AssocMap.find M k := by
  induction ms generalizing M with
  | nil => rfl
  | cons a rest ih =>
    rw [List.foldl_cons, ih _ (fun m hm => h m (List.mem_cons_of_mem _ hm)),
      AssocMap.find_set, if_neg (h a (List.mem_cons_self _ _))]

theorem storeLoop_find_last (ms : List LLVMRustThinLTOModule)
    (M : AssocMap String MemoryBufferRef) (i : Nat) (m : LLVMRustThinLTOModule)
    (hi : ms[i]? = some m)
    (hlast : ∀ j m1, i < j → ms[j]? = some m1 → m1.identifier ≠ m.identifier) :
    AssocMap.find (ms.foldl (fun M m => AssocMap.set M m.identifier m.mem_buffer) M)
      m.identifier = some m.mem_buffer := by
  induction ms generalizing M i with
  | nil => simp at hi
  | cons a rest ih =>
    rw [List.foldl_cons]
    cases i with
    | zero =>
      simp only [List.getElem?_cons_zero, Option.some.injEq] at hi
      subst hi
      rw [storeLoop_find_of_not_mem, AssocMap.find_set, if_pos rfl]
      intro m1 hm1
      obtain ⟨j, hj⟩ := List.mem_iff_getElem?.mp hm1
      exact hlast (j + 1) m1 (Nat.succ_pos j) (by simpa using hj)
    | succ i =>
      refine ih _ i (by simpa using hi) ?_
      intro j m1 hj hm1
      exact hlast (j + 1) m1 (Nat.succ_lt_succ hj) (by simpa using hm1)

theorem exists_last_with_identifier (ms : List LLVMRustThinLTOModule) (id : String)
    (hex : ∃ m ∈ ms, m.identifier = id) :
    ∃ (j : Nat) (m1 : LLVMRustThinLTOModule), ms[j]? = some m1 ∧ m1.identifier = id ∧
      ∀ (k : Nat) (m2 : LLVMRustThinLTOModule), j < k → ms[k]? = some m2 →
        m2.identifier ≠ id := by
  induction ms with
  | nil =>
    obtain ⟨m, hm, _⟩ := hex
    cases hm
  | cons a rest ih =>
    by_cases hrest : ∃ m ∈ rest, m.identifier = id
    · obtain ⟨j, m1, hj, hid, hlast⟩ := ih hrest
      refine ⟨j + 1, m1, by simpa using hj, hid, ?_⟩
      intro k m2 hk hk2
      cases k with
      | zero => omega
      | succ k => exact hlast k m2 (by omega) (by simpa using hk2)
    · have ha : a.identifier = id := by
        obtain ⟨m, hm, hid⟩ := hex
        rcases List.mem_cons.mp hm with e | e
        · rw [← e]; exact hid
        · exact absurd ⟨m, e, hid⟩ hrest
      refine ⟨0, a, by simp, ha, ?_⟩
      intro k m2 hk hk2
      cases k with
      | zero => omega
      | succ k =>
        intro e
        exact hrest ⟨m2, List.mem_iff_getElem?.mpr ⟨k, by simpa using hk2⟩, e⟩

theorem mergeModules_ok_ModuleMap (llvm : LLVM) (modules : List LLVMRustThinLTOModule)
    (i : Nat) (Ret R : LLVMRustThinLTOData)
    (h : mergeModules llvm modules i Ret = Except.ok R) :
    R.ModuleMap = modules.foldl (fun M m => AssocMap.set M m.identifier m.mem_buffer)
      Ret.ModuleMap := by
  induction modules generalizing i Ret with
  | nil =>
    simp only [mergeModules, Except.ok.injEq] at h
    rw [← h]
    rfl
  | cons m rest ih =>
    rw [mergeModules] at h
    cases hm : llvm.create m.mem_buffer with
    | error e => simp only [hm] at h; cases h
    | ok d =>
      simp only [hm] at h
      rw [ih _ _ h]
      rfl

theorem LLVMRustCreateThinLTOData_ModuleMap (llvm : LLVM) (fuel : Nat)
    (modules : List LLVMRustThinLTOModule) (preserved_symbols : List String)
    (LastError Slot : Option String) (Ret : LLVMRustThinLTOData)
    (h : LLVMRustCreateThinLTOData llvm fuel modules preserved_symbols LastError =
      some (some Ret, Slot)) :
    Ret.ModuleMap = modules.foldl (fun M m => AssocMap.set M m.identifier m.mem_buffer) [] := by
  cases hm : mergeModules llvm modules 0 LLVMRustThinLTOData.empty with
  | error Err =>
    rw [LLVMRustCreateThinLTOData_of_error llvm fuel modules preserved_symbols LastError Err hm]
      at h
    simp at h
  | ok R =>
    have hR := mergeModules_ok_ModuleMap llvm modules 0 _ R hm
    simp only [LLVMRustCreateThinLTOData, hm] at h
    cases hq : preservedSymbolsLoop llvm.getGUID R.Index fuel preserved_symbols
        R.GUIDPreservedSymbols with
    | none => simp [hq] at h
    | some Q =>
      simp only [hq, Option.some.injEq, Prod.mk.injEq] at h
      rw [← h.1]
      exact hR

/-- C10: in the plan that `LLVMRustCreateThinLTOData` returns, looking up the
identifier of an input module in `ModuleMap` gives the buffer reference (data pointer,
length, identifier) of the last input module that carries that identifier: of the
module at position `i` when no later module has its identifier, hence of the module
itself when the identifiers are distinct. -/
theorem C10_ModuleMap_lookup (llvm : LLVM) (fuel : Nat)
    (modules : List LLVMRustThinLTOModule) (preserved_symbols : List String)
    (LastError Slot : Option String) (Ret : LLVMRustThinLTOData)
    (h : LLVMRustCreateThinLTOData llvm fuel modules preserved_symbols LastError =
      some (some Ret, Slot)) :
    (∀ (i : Nat) (m : LLVMRustThinLTOModule), modules[i]? = some m →
      (∀ (j : Nat) (m1 : LLVMRustThinLTOModule), i < j → modules[j]? = some m1 →
        m1.identifier ≠ m.identifier) →
      AssocMap.find Ret.ModuleMap m.identifier =
        some { Buffer := { Data := m.data, Length := m.len }, Identifier := m.identifier }) ∧
    (∀ m ∈ modules, ∃ (j : Nat) (m1 : LLVMRustThinLTOModule),
      modules[j]? = some m1 ∧ m1.identifier = m.identifier ∧
      (∀ (k : Nat) (m2 : LLVMRustThinLTOModule), j < k → modules[k]? = some m2 →
        m2.identifier ≠ m.identifier) ∧
      AssocMap.find Ret.ModuleMap m.identifier =
        some { Buffer := { Data := m1.data, Length := m1.len },
               Identifier := m1.identifier }) ∧
    ((modules.map LLVMRustThinLTOModule.identifier).Nodup →
      ∀ m ∈ modules, AssocMap.find Ret.ModuleMap m.identifier =
        some { Buffer := { Data := m.data, Length := m.len }, Identifier := m.identifier }) := by
  have hmap := LLVMRustCreateThinLTOData_ModuleMap llvm fuel modules preserved_symbols
    LastError Slot Ret h
  have hpos : ∀ (i : Nat) (m : LLVMRustThinLTOModule), modules[i]? = some m →
      (∀ (j : Nat) (m1 : LLVMRustThinLTOModule), i < j → modules[j]? = some m1 →
        m1.identifier ≠ m.identifier) →
      AssocMap.find Ret.ModuleMap m.identifier = some m.mem_buffer := by
    intro i m hi hlast
    rw [hmap]
    exact storeLoop_find_last modules [] i m hi hlast
  refine ⟨hpos, ?_, ?_⟩
  · intro m hm
    obtain ⟨j, m1, hj, hid, hlast⟩ :=
      exists_last_with_identifier modules m.identifier ⟨m, hm, rfl⟩
    refine ⟨j, m1, hj, hid, hlast, ?_⟩
    rw [← hid]
    exact hpos j m1 hj (fun k m2 hk hk2 => by rw [hid]; exact hlast k m2 hk hk2)
  · intro hnodup m hm
    obtain ⟨i, hi⟩ := List.mem_iff_getElem?.mp hm
    refine hpos i m hi ?_
    intro j m1 hij hj e
    have hilt : i < modules.length := (List.getElem?_eq_some.mp hi).1
    have : i = j := by
      apply List.getElem?_inj (by simpa using hilt) hnodup
      rw [List.getElem?_map, List.getElem?_map, hi, hj]
      simp [e]
    omega

/-- Witness of C10: in the plan for the three example modules, the identifier `a`,
carried by the first and the last module, maps to the bytes of the last one, and `b`
maps to the bytes of the second module. -/
theorem C10_ModuleMap_lookup_witness :
    ∃ Ret, LLVMRustCreateThinLTOData exampleLLVM 4 exampleModules ["main"] none =
        some (some Ret, none) ∧
      AssocMap.find Ret.ModuleMap "a" =
        some { Buffer := { Data := 30, Length := 6 }, Identifier := "a" } ∧
      AssocMap.find Ret.ModuleMap "b" =
        some { Buffer := { Data := 20, Length := 5 }, Identifier := "b" } := by
  obtain ⟨Ret, hRet, _⟩ := LLVMRustCreateThinLTOData_of_ok exampleLLVM 4 exampleModules
    ["main"] none _ rfl (by decide)
  have h := (C10_ModuleMap_lookup exampleLLVM 4 exampleModules ["main"] none none Ret hRet).1
  refine ⟨Ret, hRet, h 2 { identifier := "a", data := 30, len := 6 } (by decide) ?_,
    h 1 { identifier := "b", data := 20, len := 5 } (by decide) ?_⟩
  · intro j m1 hj hm1
    have : j < exampleModules.length := (List.getElem?_eq_some.mp hm1).1
    simp only [exampleModules, List.length_cons, List.length_nil] at this
    omega
  · intro j m1 hj hm1
    have hlt : j < exampleModules.length := (List.getElem?_eq_some.mp hm1).1
    simp only [exampleModules, List.length_cons, List.length_nil] at hlt
    have hj2 : j = 2 := by omega
    subst hj2
    simp only [exampleModules, List.getElem?_cons_succ, List.getElem?_cons_zero,
      Option.some.injEq] at hm1
    subst hm1
    decide

/-! ## Claims on the module buffer store and the import -/

/-- Counterexample to C11: `m9` was never stored in the module map of the example data,
and the loader asked for `m9` does not report a failure of the lookup: it hands the
default-constructed buffer to the reader, which here returns a module. -/
theorem C11_absent_identifier_counterexample :
    AssocMap.find exampleImportData.ModuleMap "m9" = none ∧
    Loader exampleBitcode exampleImportData exampleModule "m9" =
      Except.ok { ModuleIdentifier := "", Context := exampleModule.Context, Globals := [0] } :=
  ⟨by decide, rfl⟩

/-- C11, amended: the loader of `LLVMRustPrepareThinLTOImport` has no failure of its
own. Asked for an identifier absent from `ModuleMap`, it passes the default-constructed
`MemoryBufferRef` (no bytes, empty identifier) to `getLazyBitcodeModule`, in the
context of the module, and returns what that call returns; asked for a stored
identifier, it passes the stored buffer. -/
theorem C11_loader_on_absent_identifier (bc : LLVMBitcode) (Data : LLVMRustThinLTOData)
    (Mod : Module) (Identifier : String) :
    (AssocMap.find Data.ModuleMap Identifier = none →
      Loader bc Data Mod Identifier =
        bc.getLazyBitcodeModule
          { Buffer := { Data := 0, Length := 0 }, Identifier := "" } Mod.Context true true) ∧
    (∀ Memory, AssocMap.find Data.ModuleMap Identifier = some Memory →
      Loader bc Data Mod Identifier = bc.getLazyBitcodeModule Memory Mod.Context true true) := by
  constructor
  · intro h
    simp only [Loader, AssocMap.lookup, h, MemoryBufferRef.empty]
  · intro Memory h
    simp only [Loader, AssocMap.lookup, h]

/-- Witness of C11, amended: with the reader that rejects empty buffers, the loader
asked for the absent `m9` returns the reader's error on the empty buffer, and asked for
the stored `m1` it returns the module read from the stored bytes. -/
theorem C11_loader_on_absent_identifier_witness :
    AssocMap.find exampleImportData.ModuleMap "m9" = none ∧
    Loader exampleStrictBitcode exampleImportData exampleModule "m9" =
      Except.error "Invalid bitcode signature" ∧
    Loader exampleStrictBitcode exampleImportData exampleModule "m1" =
      Except.ok { ModuleIdentifier := "m1", Context := exampleModule.Context,
                  Globals := [108] } :=
  ⟨by decide,
    ((C11_loader_on_absent_identifier exampleStrictBitcode exampleImportData exampleModule
      "m9").1 (by decide)).trans rfl,
    ((C11_loader_on_absent_identifier exampleStrictBitcode exampleImportData exampleModule
      "m1").2 { Buffer := { Data := 100, Length := 8 }, Identifier := "m1" }
      (by decide)).trans rfl⟩

/-! ## Claims on the returned plan -/

theorem mergeModules_congr (llvm llvm1 : LLVM) (hc : llvm1.create = llvm.create)
    (hm : llvm1.mergeFrom = llvm.mergeFrom) (modules : List LLVMRustThinLTOModule)
    (i : Nat) (Ret : LLVMRustThinLTOData) :
    mergeModules llvm1 modules i Ret = mergeModules llvm modules i Ret := by
  induction modules generalizing i Ret with
  | nil => rfl
  | cons m rest ih =>
    rw [mergeModules, mergeModules, hc, hm]
    cases llvm.create m.mem_buffer with
    | error e => rfl
    | ok d => exact ih _ _

theorem mergeModules_ok_GUIDPreservedSymbols (llvm : LLVM)
    (modules : List LLVMRustThinLTOModule) (i : Nat) (Ret R : LLVMRustThinLTOData)
    (h : mergeModules llvm modules i Ret = Except.ok R) :
    R.GUIDPreservedSymbols = Ret.GUIDPreservedSymbols := by
  induction modules generalizing i Ret with
  | nil =>
    simp only [mergeModules, Except.ok.injEq] at h
    rw [← h]
  | cons m rest ih =>
    rw [mergeModules] at h
    cases hm : llvm.create m.mem_buffer with
    | error e => simp only [hm] at h; cases h
    | ok d =>
      simp only [hm] at h
      rw [ih _ _ h]

/-- Counterexample to C12: module `a` holds one link-once function, 7, which is
neither preserved nor exported. The run records the decision that 7 of `a` becomes
weak, and the linkage that the returned plan gives for 7 of `a` is internal, since the
internalization that follows overwrites it. The run on the same buffers holding a
weak function records no decision and returns the same plan. -/
theorem C12_recorded_decision_not_in_plan_counterexample :
    recordNewLinkageCalls (examplePlannerLLVM LinkageTypes.LinkOnceODRLinkage) 2
      exampleOneModule ["main"] = some [("a", 7, LinkageTypes.WeakODRLinkage)] ∧
    recordNewLinkageCalls (examplePlannerLLVM LinkageTypes.WeakODRLinkage) 2
      exampleOneModule ["main"] = some [] ∧
    (∃ Ret, LLVMRustCreateThinLTOData (examplePlannerLLVM LinkageTypes.LinkOnceODRLinkage) 2
        exampleOneModule ["main"] none = some (some Ret, none) ∧
      definedLinkage Ret exampleModuleA 7 = some LinkageTypes.InternalLinkage ∧
      Ret.Index.GlobalValueMap.map
        (fun I => (I.1, I.2.map (fun S => (S.ModulePath, S.linkage)))) =
        [(7, [("a", LinkageTypes.InternalLinkage)])]) ∧
    LLVMRustCreateThinLTOData (examplePlannerLLVM LinkageTypes.LinkOnceODRLinkage) 2
        exampleOneModule ["main"] none =
      LLVMRustCreateThinLTOData (examplePlannerLLVM LinkageTypes.WeakODRLinkage) 2
        exampleOneModule ["main"] none :=
  ⟨by decide, by decide, ⟨_, rfl, by decide, by decide⟩, rfl⟩

/-- C12, amended: a plan that `LLVMRustCreateThinLTOData` returns is made of the module
map and the preserved set of the run, the defined-summaries map of the merged index,
the import and export lists that `ComputeCrossModuleImport` gives for the index after
`computeDeadSymbols`, and the index that `thinLTOResolveWeakForLinkerInIndex` and then
`thinLTOInternalizeAndPromoteInIndex` leave. The decisions recorded through
`recordNewLinkage` are the second result of the resolution on that same index; they
are no part of the plan, and what the function returns is the same whatever
decisions are recorded. -/
theorem C12_plan_carries_lists_not_resolutions (llvm : LLVM) (fuel : Nat)
    (modules : List LLVMRustThinLTOModule) (preserved_symbols : List String)
    (LastError : Option String) :
    (∀ calls : ModuleSummaryIndex → (GUID → Option GlobalValueSummary → Bool) →
        List (String × GUID × LinkageTypes),
      LLVMRustCreateThinLTOData
          { llvm with
            thinLTOResolveWeakForLinkerInIndex := fun Index isPrev =>
              ((llvm.thinLTOResolveWeakForLinkerInIndex Index isPrev).1, calls Index isPrev) }
          fuel modules preserved_symbols LastError =
        LLVMRustCreateThinLTOData llvm fuel modules preserved_symbols LastError) ∧
    (∀ Ret Slot,
      LLVMRustCreateThinLTOData llvm fuel modules preserved_symbols LastError =
        some (some Ret, Slot) →
      ∃ R Q,
        mergeModules llvm modules 0 LLVMRustThinLTOData.empty = Except.ok R ∧
        preservedSymbolsLoop llvm.getGUID R.Index fuel preserved_symbols ∅ = some Q ∧
        Ret.ModuleMap = R.ModuleMap ∧
        Ret.GUIDPreservedSymbols = Q ∧
        Ret.ModuleToDefinedGVSummaries = llvm.collectDefinedGVSummariesPerModule R.Index ∧
        Ret.ImportLists =
          (llvm.ComputeCrossModuleImport (llvm.computeDeadSymbols R.Index Q)
            (llvm.collectDefinedGVSummariesPerModule R.Index)).1 ∧
        Ret.ExportLists =
          (llvm.ComputeCrossModuleImport (llvm.computeDeadSymbols R.Index Q)
            (llvm.collectDefinedGVSummariesPerModule R.Index)).2 ∧
        Ret.Index =
          llvm.thinLTOInternalizeAndPromoteInIndex
            (llvm.thinLTOResolveWeakForLinkerInIndex (llvm.computeDeadSymbols R.Index Q)
              (isPrevailing (buildPrevailingCopy (llvm.computeDeadSymbols R.Index Q)))).1
            (isExported Ret) ∧
        recordNewLinkageCalls llvm fuel modules preserved_symbols =
          some (llvm.thinLTOResolveWeakForLinkerInIndex (llvm.computeDeadSymbols R.Index Q)
            (isPrevailing (buildPrevailingCopy (llvm.computeDeadSymbols R.Index Q)))).2) := by
  refine ⟨?_, ?_⟩
  · intro calls
    have hmm := mergeModules_congr llvm
      { llvm with
        thinLTOResolveWeakForLinkerInIndex := fun Index isPrev =>
          ((llvm.thinLTOResolveWeakForLinkerInIndex Index isPrev).1, calls Index isPrev) }
      rfl rfl modules 0 LLVMRustThinLTOData.empty
    unfold LLVMRustCreateThinLTOData
    simp only [hmm]
  intro Ret Slot h
  cases hm : mergeModules llvm modules 0 LLVMRustThinLTOData.empty with
  | error Err =>
    rw [LLVMRustCreateThinLTOData_of_error llvm fuel modules preserved_symbols LastError Err hm]
      at h
    simp at h
  | ok R =>
    have hP : R.GUIDPreservedSymbols = ∅ :=
      mergeModules_ok_GUIDPreservedSymbols llvm modules 0 _ R hm
    simp only [LLVMRustCreateThinLTOData, hm, hP] at h
    cases hq : preservedSymbolsLoop llvm.getGUID R.Index fuel preserved_symbols ∅ with
    | none => simp [hq] at h
    | some Q =>
      simp only [hq, Option.some.injEq, Prod.mk.injEq] at h
      rw [← h.1]
      refine ⟨R, Q, rfl, hq, rfl, rfl, rfl, rfl, rfl, rfl, ?_⟩
      simp only [recordNewLinkageCalls, hm, hP, hq]

/-- Witness of C12, amended, on the run of the counterexample: the plan is the same
when no decision is reported, and its parts are those that the passes leave. -/
theorem C12_plan_carries_lists_not_resolutions_witness :
    LLVMRustCreateThinLTOData
        { examplePlannerLLVM LinkageTypes.LinkOnceODRLinkage with
          thinLTOResolveWeakForLinkerInIndex := fun Index isPrev =>
            (((examplePlannerLLVM LinkageTypes.LinkOnceODRLinkage).thinLTOResolveWeakForLinkerInIndex
              Index isPrev).1, []) }
        2 exampleOneModule ["main"] none =
      LLVMRustCreateThinLTOData (examplePlannerLLVM LinkageTypes.LinkOnceODRLinkage) 2
        exampleOneModule ["main"] none ∧
    ∃ Ret R Q,
      LLVMRustCreateThinLTOData (examplePlannerLLVM LinkageTypes.LinkOnceODRLinkage) 2
        exampleOneModule ["main"] none = some (some Ret, none) ∧
      mergeModules (examplePlannerLLVM LinkageTypes.LinkOnceODRLinkage) exampleOneModule 0
        LLVMRustThinLTOData.empty = Except.ok R ∧
      Ret.ModuleMap = R.ModuleMap ∧ Ret.GUIDPreservedSymbols = Q ∧
      Ret.ExportLists =
        ((examplePlannerLLVM LinkageTypes.LinkOnceODRLinkage).ComputeCrossModuleImport
          ((examplePlannerLLVM LinkageTypes.LinkOnceODRLinkage).computeDeadSymbols R.Index Q)
          ((examplePlannerLLVM LinkageTypes.LinkOnceODRLinkage).collectDefinedGVSummariesPerModule
            R.Index)).2 := by
  have h := C12_plan_carries_lists_not_resolutions
    (examplePlannerLLVM LinkageTypes.LinkOnceODRLinkage) 2 exampleOneModule ["main"] none
  obtain ⟨R, Q, hR, _, hMap, hQ, _, _, hExp, _, _⟩ := h.2 _ none rfl
  exact ⟨h.1 (fun _ _ => []), _, R, Q, rfl, hR, hMap, hQ, hExp⟩

/-- C13: `LLVMRustPrepareThinLTOImport` returns false exactly when `importFunctions`,
run with the loader and the import list of the module, returns an error; the last-error
slot then holds the text of that error. Otherwise it returns true, whatever boolean the
importer gives, and the last-error slot is as before. -/
theorem C13_import_error_channel (bc : LLVMBitcode) (Data : LLVMRustThinLTOData)
    (M : Module) (LastError : Option String) :
    ((LLVMRustPrepareThinLTOImport bc Data M LastError).1 = false ↔
      ∃ Err, (bc.importFunctions Data.Index (Loader bc Data M) M
        (AssocMap.lookup Data.ImportLists M.ModuleIdentifier [])).1 = Except.error Err) ∧
    (∀ Err, (bc.importFunctions Data.Index (Loader bc Data M) M
        (AssocMap.lookup Data.ImportLists M.ModuleIdentifier [])).1 = Except.error Err →
      (LLVMRustPrepareThinLTOImport bc Data M LastError).1 = false ∧
      (LLVMRustPrepareThinLTOImport bc Data M LastError).2.1 = some Err) ∧
    (∀ b, (bc.importFunctions Data.Index (Loader bc Data M) M
        (AssocMap.lookup Data.ImportLists M.ModuleIdentifier [])).1 = Except.ok b →
      (LLVMRustPrepareThinLTOImport bc Data M LastError).1 = true ∧
      (LLVMRustPrepareThinLTOImport bc Data M LastError).2.1 = LastError) := by
  unfold LLVMRustPrepareThinLTOImport
  cases h : (bc.importFunctions Data.Index (Loader bc Data M) M
      (AssocMap.lookup Data.ImportLists M.ModuleIdentifier [])).1 with
  | error Err => simp [h, LLVMRustSetLastError]
  | ok b => simp [h]

/-- Witness of C13: module `m0` imports from `m9`, which the reader cannot parse, and
the call returns false with the reader's error in the slot; a module named `m2`
imports from the stored `m1` only, and the call returns true and leaves the slot. -/
theorem C13_import_error_channel_witness :
    (LLVMRustPrepareThinLTOImport exampleStrictBitcode exampleImportData exampleModule
        (some "old")).1 = false ∧
    (LLVMRustPrepareThinLTOImport exampleStrictBitcode exampleImportData exampleModule
        (some "old")).2.1 = some "Invalid bitcode signature" ∧
    (LLVMRustPrepareThinLTOImport exampleStrictBitcode exampleImportData
        { exampleModule with ModuleIdentifier := "m2" } (some "old")).1 = true ∧
    (LLVMRustPrepareThinLTOImport exampleStrictBitcode exampleImportData
        { exampleModule with ModuleIdentifier := "m2" } (some "old")).2.1 = some "old" := by
  have h1 := (C13_import_error_channel exampleStrictBitcode exampleImportData exampleModule
    (some "old")).2.1 "Invalid bitcode signature" rfl
  have h2 := (C13_import_error_channel exampleStrictBitcode exampleImportData
    { exampleModule with ModuleIdentifier := "m2" } (some "old")).2.2 true rfl
  exact ⟨h1.1, h1.2, h2.1, h2.2⟩

/-- C14: `LLVMRustParseBitcodeForThinLTO` returns null exactly when `parseBitcodeFile`
fails on the buffer `(data, len)` with the given identifier, in the context with
debug-type ODR uniquing enabled; the last-error slot then holds the parser's message.
Otherwise it returns the parsed module and the last-error slot is as before. -/
theorem C14_parse_error_channel (bc : LLVMBitcode) (Context : LLVMContext)
    (data len : Nat) (identifier : String) (LastError : Option String) :
    ((LLVMRustParseBitcodeForThinLTO bc Context data len identifier LastError).1 = none ↔
      ∃ Err, bc.parseBitcodeFile
        { Buffer := { Data := data, Length := len }, Identifier := identifier }
        { Context with DebugTypeODRUniquing := true } = Except.error Err) ∧
    (∀ Err, bc.parseBitcodeFile
        { Buffer := { Data := data, Length := len }, Identifier := identifier }
        { Context with DebugTypeODRUniquing := true } = Except.error Err →
      (LLVMRustParseBitcodeForThinLTO bc Context data len identifier LastError).1 = none ∧
      (LLVMRustParseBitcodeForThinLTO bc Context data len identifier LastError).2.1 =
        some Err) ∧
    (∀ Src, bc.parseBitcodeFile
        { Buffer := { Data := data, Length := len }, Identifier := identifier }
        { Context with DebugTypeODRUniquing := true } = Except.ok Src →
      (LLVMRustParseBitcodeForThinLTO bc Context data len identifier LastError).1 = some Src ∧
      (LLVMRustParseBitcodeForThinLTO bc Context data len identifier LastError).2.1 =
        LastError) := by
  unfold LLVMRustParseBitcodeForThinLTO
  cases h : bc.parseBitcodeFile
      { Buffer := { Data := data, Length := len }, Identifier := identifier }
      { Context with DebugTypeODRUniquing := true } with
  | error Err => simp [h, LLVMRustSetLastError]
  | ok Src => simp [h]

/-- Witness of C14: an empty byte range is rejected by the reader, so the call returns
null with the reader's message; a range of 8 bytes parses, and the slot is left. -/
theorem C14_parse_error_channel_witness :
    (LLVMRustParseBitcodeForThinLTO exampleStrictBitcode exampleModule.Context 100 0 "m1"
        (some "old")).1 = none ∧
    (LLVMRustParseBitcodeForThinLTO exampleStrictBitcode exampleModule.Context 100 0 "m1"
        (some "old")).2.1 = some "Invalid bitcode signature" ∧
    (LLVMRustParseBitcodeForThinLTO exampleStrictBitcode exampleModule.Context 100 8 "m1"
        (some "old")).1 =
      some { ModuleIdentifier := "m1", Context := { id := 1, DebugTypeODRUniquing := true },
             Globals := [108] } ∧
    (LLVMRustParseBitcodeForThinLTO exampleStrictBitcode exampleModule.Context 100 8 "m1"
        (some "old")).2.1 = some "old" := by
  have h1 := (C14_parse_error_channel exampleStrictBitcode exampleModule.Context 100 0 "m1"
    (some "old")).2.1 "Invalid bitcode signature" rfl
  have h2 := (C14_parse_error_channel exampleStrictBitcode exampleModule.Context 100 8 "m1"
    (some "old")).2.2 _ rfl
  exact ⟨h1.1, h1.2, h2.1, h2.2⟩

/-! ## Claims on `LLVMRustWriteOutputFile`, `LLVMRustSetLLVMOptions` and `CallDemangle` -/

/-- C15: when the open of the output destination leaves an error code with a
non-empty message, `LLVMRustWriteOutputFile` returns `Failure`, sets the last-error slot
to that message and makes no call on the pass manager; when the open leaves no error,
it adds the passes to emit the file, with the file type that `fromRust` gives, runs
the pass manager once on the module, and returns `Success` with the slot as before.
This holds for every file type and whatever `fromRust` yields in its unreachable case;
for `AssemblyFile` and `ObjectFile` the emitted file type is the matching one. -/
theorem C15_write_output_file (Unreachable : CodeGenFileType)
    (openFile : String → error_code) (Target M : Nat) (Path : String)
    (RustFileType : LLVMRustFileType) (LastError : Option String) :
    ((openFile Path).value ≠ 0 → (openFile Path).message ≠ "" →
      LLVMRustWriteOutputFile Unreachable openFile Target M Path RustFileType LastError =
        (LLVMRustResult.Failure, some (openFile Path).message, [])) ∧
    ((openFile Path).value = 0 →
      LLVMRustWriteOutputFile Unreachable openFile Target M Path RustFileType LastError =
        (LLVMRustResult.Success, LastError,
          [PassManagerCall.addPassesToEmitFile Target Path
            (fromRust Unreachable RustFileType) false,
           PassManagerCall.run M, PassManagerCall.delete])) ∧
    fromRust Unreachable LLVMRustFileType.AssemblyFile = CodeGenFileType.CGFT_AssemblyFile ∧
    fromRust Unreachable LLVMRustFileType.ObjectFile = CodeGenFileType.CGFT_ObjectFile := by
  refine ⟨?_, ?_, rfl, rfl⟩
  · intro hv hm
    simp [LLVMRustWriteOutputFile, hv, hm, LLVMRustSetLastError]
  · intro hv
    simp [LLVMRustWriteOutputFile, hv]

/-- Witness of C15: an object file to a path that cannot be opened, and an assembly
file to a path that can. -/
theorem C15_write_output_file_witness :
    LLVMRustWriteOutputFile CodeGenFileType.CGFT_Null exampleOpen 1 2 "/nowhere/out.o"
        LLVMRustFileType.ObjectFile (some "old") =
      (LLVMRustResult.Failure, some "No such file or directory", []) ∧
    LLVMRustWriteOutputFile CodeGenFileType.CGFT_Null exampleOpen 1 2 "out.s"
        LLVMRustFileType.AssemblyFile (some "old") =
      (LLVMRustResult.Success, some "old",
        [PassManagerCall.addPassesToEmitFile 1 "out.s" CodeGenFileType.CGFT_AssemblyFile false,
         PassManagerCall.run 2, PassManagerCall.delete]) :=
  ⟨(C15_write_output_file CodeGenFileType.CGFT_Null exampleOpen 1 2 "/nowhere/out.o"
      LLVMRustFileType.ObjectFile (some "old")).1 (by decide) (by decide),
    (C15_write_output_file CodeGenFileType.CGFT_Null exampleOpen 1 2 "out.s"
      LLVMRustFileType.AssemblyFile (some "old")).2.1 (by decide)⟩

theorem callsOfSetLLVMOptions_initialized (st : OptionsState)
    (calls : List (Nat × List String)) (h : st.Initialized = true) :
    callsOfSetLLVMOptions st calls = st := by
  induction calls with
  | nil => rfl
  | cons call rest ih =>
    unfold callsOfSetLLVMOptions at ih ⊢
    rw [List.foldl_cons]
    have : LLVMRustSetLLVMOptions st call.1 call.2 = st := by
      simp [LLVMRustSetLLVMOptions, h]
    rw [this]
    exact ih

/-- C16: in every sequence of calls of `LLVMRustSetLLVMOptions` from program start,
`cl::ParseCommandLineOptions` is called once, with the arguments of the first call;
every call made once the flag is set leaves the state as it is, whatever its
arguments. -/
theorem C16_options_parsed_once :
    (∀ (Argc : Nat) (Argv : List String) (later : List (Nat × List String)),
      (callsOfSetLLVMOptions OptionsState.initial ((Argc, Argv) :: later)).Parsed =
        [(Argc, Argv)] ∧
      (callsOfSetLLVMOptions OptionsState.initial ((Argc, Argv) :: later)).Initialized =
        true) ∧
    (∀ (st : OptionsState) (Argc : Nat) (Argv : List String), st.Initialized = true →
      LLVMRustSetLLVMOptions st Argc Argv = st) ∧
    (callsOfSetLLVMOptions OptionsState.initial []).Parsed = [] := by
  refine ⟨?_, ?_, rfl⟩
  · intro Argc Argv later
    have h : callsOfSetLLVMOptions OptionsState.initial ((Argc, Argv) :: later) =
        callsOfSetLLVMOptions (LLVMRustSetLLVMOptions OptionsState.initial Argc Argv) later :=
      rfl
    rw [h, callsOfSetLLVMOptions_initialized _ _ rfl]
    exact ⟨rfl, rfl⟩
  · intro st Argc Argv h
    simp [LLVMRustSetLLVMOptions, h]

/-- Witness of C16: three calls with different arguments. -/
theorem C16_options_parsed_once_witness :
    (callsOfSetLLVMOptions OptionsState.initial
      [(2, ["rustc", "-O3"]), (1, ["rustpkg"]), (2, ["rustc", "-O0"])]).Parsed =
      [(2, ["rustc", "-O3"])] ∧
    LLVMRustSetLLVMOptions { Initialized := true, Parsed := [(2, ["rustc", "-O3"])] }
      1 ["rustpkg"] = { Initialized := true, Parsed := [(2, ["rustc", "-O3"])] } :=
  ⟨(C16_options_parsed_once.1 2 ["rustc", "-O3"] [(1, ["rustpkg"]), (2, ["rustc", "-O0"])]).1,
    C16_options_parsed_once.2.1 _ 1 ["rustpkg"] rfl⟩

theorem afterWrite_length (Buf written : List Nat) :
    (afterWrite Buf written).length = Buf.length := by
  unfold afterWrite
  rw [List.length_take, List.length_append, List.length_drop]
  omega

/-- C17: `CallDemangle` returns the empty string when `Demangle` is null, when the
callback returns 0, and when the first `R` bytes of the buffer after the callback are
the name; in every other case it returns exactly the first `R` bytes of the buffer,
`R` being what the callback returns, taken to be at most the length of the buffer
passed to the callback. -/
theorem C17_CallDemangle_result (Demangle : Option DemangleFn) (Buf name : List Nat) :
    (Demangle = none → CallDemangle Demangle Buf name = ([], Buf)) ∧
    (∀ (D : DemangleFn) (R : Nat), Demangle = some D →
      R = (D name (demangleBuffer Buf name)).2 →
      (CallDemangle Demangle Buf name).2 =
        afterWrite (demangleBuffer Buf name) (D name (demangleBuffer Buf name)).1 ∧
      ((CallDemangle Demangle Buf name).2).length = (demangleBuffer Buf name).length ∧
      (R = 0 → (CallDemangle Demangle Buf name).1 = []) ∧
      (R ≤ (demangleBuffer Buf name).length →
        ((CallDemangle Demangle Buf name).2).take R = name →
        (CallDemangle Demangle Buf name).1 = []) ∧
      (R ≤ (demangleBuffer Buf name).length → R ≠ 0 →
        ((CallDemangle Demangle Buf name).2).take R ≠ name →
        (CallDemangle Demangle Buf name).1 = ((CallDemangle Demangle Buf name).2).take R ∧
        ((CallDemangle Demangle Buf name).1).length = R)) := by
  constructor
  · intro h
    subst h
    rfl
  · intro D R hD hR
    subst hD
    have hbuf : (CallDemangle (some D) Buf name).2 =
        afterWrite (demangleBuffer Buf name) (D name (demangleBuffer Buf name)).1 := by
      unfold CallDemangle
      simp only
      split
      · rfl
      · split <;> rfl
    have hlen : ((CallDemangle (some D) Buf name).2).length =
        (demangleBuffer Buf name).length := by
      rw [hbuf, afterWrite_length]
    refine ⟨hbuf, hlen, ?_, ?_, ?_⟩
    · intro h0
      unfold CallDemangle
      simp only [← hR, h0, if_true]
    · intro _ heq
      rw [hbuf] at heq
      unfold CallDemangle
      simp only [← hR, heq, if_true]
      split <;> rfl
    · intro hle hne hneq
      rw [hbuf] at hneq ⊢
      have hres : (CallDemangle (some D) Buf name).1 =
          (afterWrite (demangleBuffer Buf name) (D name (demangleBuffer Buf name)).1).take R := by
        unfold CallDemangle
        simp only [← hR, hne, hneq, if_false]
      refine ⟨hres, ?_⟩
      rw [hres, List.length_take, afterWrite_length]
      omega

/-- Witness of C17: with an empty buffer, the name `_ZN` (bytes 95, 90, 78) is
demangled to the two bytes that follow the underscore, a name without underscore
makes the callback return 0, and a callback that writes the name back gives the
empty string. -/
theorem C17_CallDemangle_result_witness :
    (CallDemangle (some exampleDemangle) [] [95, 90, 78]).1 = [90, 78] ∧
    (CallDemangle (some exampleDemangle) [] [95, 90, 78]).2 = [90, 78, 0, 0, 0, 0] ∧
    (CallDemangle (some exampleDemangle) [] [65, 66]).1 = [] ∧
    (CallDemangle (some exampleIdentityDemangle) [] [65, 66]).1 = [] ∧
    (CallDemangle none [7] [65, 66]) = ([], [7]) := by
  have h1 := (C17_CallDemangle_result (some exampleDemangle) [] [95, 90, 78]).2
    exampleDemangle 2 rfl (by decide)
  have h2 := (C17_CallDemangle_result (some exampleDemangle) [] [65, 66]).2
    exampleDemangle 0 rfl (by decide)
  have h3 := (C17_CallDemangle_result (some exampleIdentityDemangle) [] [65, 66]).2
    exampleIdentityDemangle 2 rfl (by decide)
  refine ⟨?_, ?_, h2.2.2.1 rfl, h3.2.2.2.1 (by decide) (by decide),
    (C17_CallDemangle_result none [7] [65, 66]).1 rfl⟩
  · exact ((h1.2.2.2.2 (by decide) (by decide) (by decide)).1).trans (by decide)
  · exact h1.1.trans (by decide)

/-! ## Further claims on the preserved set -/

theorem preservedSymbolsLoop_mem_iff (getGUID : String → GUID) (Index : ModuleSummaryIndex)
    (fuel : Nat) (symbols : List String) (S : GUIDSet)
    (h : preservedSymbolsLoop getGUID Index fuel symbols ∅ = some S) (H : GUID) :
    H ∈ S ↔ ∃ symbol ∈ symbols, Reachable Index (getGUID symbol) H := by
  have s := preservedSymbolsLoop_spec getGUID Index fuel symbols ∅ S h
  have hclosed : ClosedExcept Index ∅ S :=
    s.closed ∅ (fun g hg => absurd hg (Finset.not_mem_empty g))
  constructor
  · intro hH
    rcases s.sound H hH with h0 | ⟨t, ht, hr⟩
    · exact absurd h0 (Finset.not_mem_empty H)
    · obtain ⟨symbol, hsym, rfl⟩ := List.mem_map.mp ht
      exact ⟨symbol, hsym, hr⟩
  · rintro ⟨symbol, hsym, hr⟩
    exact closed_reachable Index S hclosed _ H
      (s.mem _ (List.mem_map_of_mem getGUID hsym)) hr

theorem preservedSymbolsLoop_congr (getGUID : String → GUID) (Index : ModuleSummaryIndex)
    (fuel : Nat) (hf : Index.GlobalValueMap.length < fuel) (R1 R2 : List String)
    (hsame : ∀ symbol, symbol ∈ R1 ↔ symbol ∈ R2) :
    preservedSymbolsLoop getGUID Index fuel R1 ∅ =
      preservedSymbolsLoop getGUID Index fuel R2 ∅ := by
  obtain ⟨S1, h1⟩ := preservedSymbolsLoop_returns getGUID Index fuel hf R1 ∅
  obtain ⟨S2, h2⟩ := preservedSymbolsLoop_returns getGUID Index fuel hf R2 ∅
  rw [h1, h2]
  congr 1
  ext H
  rw [preservedSymbolsLoop_mem_iff getGUID Index fuel R1 S1 h1,
    preservedSymbolsLoop_mem_iff getGUID Index fuel R2 S2 h2]
  constructor
  · rintro ⟨symbol, hsym, hr⟩
    exact ⟨symbol, (hsame symbol).mp hsym, hr⟩
  · rintro ⟨symbol, hsym, hr⟩
    exact ⟨symbol, (hsame symbol).mpr hsym, hr⟩

/-- C18: with more fuel than the index has entries, the root loop of
`LLVMRustCreateThinLTOData` returns the same preserved set for two root lists that
are permutations of each other, and for two root lists with the same entries, repeated
or not; and the set for the roots `R1` followed by `R2` is the union of the set for
`R1` alone and the set for `R2` alone. -/
theorem C18_preserved_set_order_independent (getGUID : String → GUID)
    (Index : ModuleSummaryIndex) (fuel : Nat) (hf : Index.GlobalValueMap.length < fuel) :
    (∀ R1 R2 : List String, R1.Perm R2 →
      preservedSymbolsLoop getGUID Index fuel R1 ∅ =
        preservedSymbolsLoop getGUID Index fuel R2 ∅) ∧
    (∀ R1 R2 : List String, (∀ symbol, symbol ∈ R1 ↔ symbol ∈ R2) →
      preservedSymbolsLoop getGUID Index fuel R1 ∅ =
        preservedSymbolsLoop getGUID Index fuel R2 ∅) ∧
    (∀ R1 R2 : List String, ∃ S1 S2,
      preservedSymbolsLoop getGUID Index fuel R1 ∅ = some S1 ∧
      preservedSymbolsLoop getGUID Index fuel R2 ∅ = some S2 ∧
      preservedSymbolsLoop getGUID Index fuel (R1 ++ R2) ∅ = some (S1 ∪ S2)) := by
  refine ⟨?_, ?_, ?_⟩
  · intro R1 R2 hperm
    exact preservedSymbolsLoop_congr getGUID Index fuel hf R1 R2 (fun _ => hperm.mem_iff)
  · intro R1 R2 hsame
    exact preservedSymbolsLoop_congr getGUID Index fuel hf R1 R2 hsame
  · intro R1 R2
    obtain ⟨S1, h1⟩ := preservedSymbolsLoop_returns getGUID Index fuel hf R1 ∅
    obtain ⟨S2, h2⟩ := preservedSymbolsLoop_returns getGUID Index fuel hf R2 ∅
    obtain ⟨S12, h12⟩ := preservedSymbolsLoop_returns getGUID Index fuel hf (R1 ++ R2) ∅
    refine ⟨S1, S2, h1, h2, ?_⟩
    rw [h12]
    congr 1
    ext H
    rw [Finset.mem_union, preservedSymbolsLoop_mem_iff getGUID Index fuel _ S12 h12,
      preservedSymbolsLoop_mem_iff getGUID Index fuel R1 S1 h1,
      preservedSymbolsLoop_mem_iff getGUID Index fuel R2 S2 h2]
    constructor
    · rintro ⟨symbol, hsym, hr⟩
      rcases List.mem_append.mp hsym with hs | hs
      · exact Or.inl ⟨symbol, hs, hr⟩
      · exact Or.inr ⟨symbol, hs, hr⟩
    · rintro (⟨symbol, hs, hr⟩ | ⟨symbol, hs, hr⟩)
      · exact ⟨symbol, List.mem_append_left _ hs, hr⟩
      · exact ⟨symbol, List.mem_append_right _ hs, hr⟩

/-- Witness of C18 on the example index: the roots `bar`, `foo` in either order, and
with `bar` repeated, give the same set, and `main` followed by `bar` gives the union. -/
theorem C18_preserved_set_order_independent_witness :
    exampleIndex.GlobalValueMap.length < 4 ∧
    preservedSymbolsLoop exampleGUID exampleIndex 4 ["bar", "foo"] ∅ =
      preservedSymbolsLoop exampleGUID exampleIndex 4 ["foo", "bar"] ∅ ∧
    preservedSymbolsLoop exampleGUID exampleIndex 4 ["bar", "foo", "bar"] ∅ =
      preservedSymbolsLoop exampleGUID exampleIndex 4 ["foo", "bar"] ∅ ∧
    (∃ S1 S2,
      preservedSymbolsLoop exampleGUID exampleIndex 4 ["main"] ∅ = some S1 ∧
      preservedSymbolsLoop exampleGUID exampleIndex 4 ["bar"] ∅ = some S2 ∧
      preservedSymbolsLoop exampleGUID exampleIndex 4 (["main"] ++ ["bar"]) ∅ =
        some (S1 ∪ S2)) := by
  have h := C18_preserved_set_order_independent exampleGUID exampleIndex 4 (by decide)
  refine ⟨by decide, h.1 _ _ (List.Perm.swap "foo" "bar" []), h.2.1 _ _ ?_, h.2.2 _ _⟩
  intro symbol
  simp only [List.mem_cons, List.mem_singleton, List.not_mem_nil, or_false]
  tauto

/-! ## Further claims on `getFirstDefinitionForLinker` and `isPrevailing` -/

theorem find?_some_position {α : Type} (p : α → Bool) (L : List α) (s : α)
    (h : L.find? p = some s) :
    ∃ i : Nat, L[i]? = some s ∧ p s = true ∧
      ∀ (j : Nat) (t : α), j < i → L[j]? = some t → p t = false := by
  induction L with
  | nil => simp at h
  | cons a rest ih =>
    cases ha : p a with
    | true =>
      simp only [List.find?, ha, Option.some.injEq] at h
      subst h
      exact ⟨0, by simp, ha, fun j t hj _ => absurd hj (Nat.not_lt_zero j)⟩
    | false =>
      simp only [List.find?, ha] at h
      obtain ⟨i, hi, hp, hbefore⟩ := ih h
      refine ⟨i + 1, by simpa using hi, hp, ?_⟩
      intro j t hj ht
      cases j with
      | zero =>
        simp only [List.getElem?_cons_zero, Option.some.injEq] at ht
        subst ht
        exact ha
      | succ j => exact hbefore j t (by omega) (by simpa using ht)

/-- C19: `getFirstDefinitionForLinker` returns null exactly when every summary of the
list has available-externally linkage, as on the empty list; a summary it returns
stands at some position of the list, its linkage is not available-externally, and no
summary at an earlier position has a linkage that is both not available-externally and
not weak-for-linker. -/
theorem C19_getFirstDefinitionForLinker_null_iff (L : GlobalValueSummaryList) :
    (getFirstDefinitionForLinker L = none ↔
      ∀ S ∈ L, isAvailableExternallyLinkage S.linkage = true) ∧
    (∀ S, getFirstDefinitionForLinker L = some S →
      S ∈ L ∧ isAvailableExternallyLinkage S.linkage = false ∧
      ∃ i : Nat, L[i]? = some S ∧
        ∀ (j : Nat) (T : GlobalValueSummary), j < i → L[j]? = some T →
          ¬ (isAvailableExternallyLinkage T.linkage = false ∧
            isWeakForLinker T.linkage = false)) ∧
    getFirstDefinitionForLinker [] = none := by
  refine ⟨?_, ?_, rfl⟩
  · unfold getFirstDefinitionForLinker
    cases h1 : L.find? (fun Summary : GlobalValueSummary =>
        !isAvailableExternallyLinkage Summary.linkage && !isWeakForLinker Summary.linkage) with
    | some S =>
      simp only [false_iff, reduceCtorEq]
      intro hall
      have hp := List.find?_some h1
      have hS := hall S (List.mem_of_find?_eq_some h1)
      simp [hS] at hp
    | none =>
      simp only
      cases h2 : L.find? (fun Summary : GlobalValueSummary =>
          !isAvailableExternallyLinkage Summary.linkage) with
      | some S =>
        simp only [false_iff, reduceCtorEq]
        intro hall
        have hp := List.find?_some h2
        have hS := hall S (List.mem_of_find?_eq_some h2)
        simp [hS] at hp
      | none =>
        simp only [true_iff]
        intro S hS
        have := List.find?_eq_none.mp h2 S hS
        simpa using this
  · intro S hS
    unfold getFirstDefinitionForLinker at hS
    cases h1 : L.find? (fun Summary : GlobalValueSummary =>
        !isAvailableExternallyLinkage Summary.linkage && !isWeakForLinker Summary.linkage) with
    | some S1 =>
      simp only [h1, Option.some.injEq] at hS
      subst hS
      obtain ⟨i, hi, hp, hbefore⟩ := find?_some_position _ L S1 h1
      have hAE : isAvailableExternallyLinkage S1.linkage = false := by
        simp only [Bool.and_eq_true, Bool.not_eq_true'] at hp
        exact hp.1
      refine ⟨List.mem_of_find?_eq_some h1, hAE, i, hi, ?_⟩
      intro j T hj hT hstrong
      have := hbefore j T hj hT
      simp [hstrong.1, hstrong.2] at this
    | none =>
      simp only [h1] at hS
      cases h2 : L.find? (fun Summary : GlobalValueSummary =>
          !isAvailableExternallyLinkage Summary.linkage) with
      | none => simp [h2] at hS
      | some S2 =>
        simp only [h2, Option.some.injEq] at hS
        subst hS
        obtain ⟨i, hi, hp, _⟩ := find?_some_position _ L S2 h2
        have hAE : isAvailableExternallyLinkage S2.linkage = false := by
          simpa using hp
        refine ⟨List.mem_of_find?_eq_some h2, hAE, i, hi, ?_⟩
        intro j T _ hT hstrong
        have hmem : T ∈ L := List.mem_iff_getElem?.mpr ⟨j, hT⟩
        have := List.find?_eq_none.mp h1 T hmem
        simp [hstrong.1, hstrong.2] at this

/-- Witness of C19: the summary returned on the link-once example stands at position
1, and the list of available-externally copies gives null. -/
theorem C19_getFirstDefinitionForLinker_null_iff_witness :
    (exampleFunction 312 "m1" LinkageTypes.LinkOnceODRLinkage [] ∈ exampleLinkOnce ∧
      isAvailableExternallyLinkage LinkageTypes.LinkOnceODRLinkage = false ∧
      ∃ i : Nat, exampleLinkOnce[i]? =
          some (exampleFunction 312 "m1" LinkageTypes.LinkOnceODRLinkage []) ∧
        ∀ (j : Nat) (T : GlobalValueSummary), j < i → exampleLinkOnce[j]? = some T →
          ¬ (isAvailableExternallyLinkage T.linkage = false ∧
            isWeakForLinker T.linkage = false)) ∧
    getFirstDefinitionForLinker exampleAvailable = none := by
  have h := (C19_getFirstDefinitionForLinker_null_iff exampleLinkOnce).2.1
    (exampleFunction 312 "m1" LinkageTypes.LinkOnceODRLinkage []) (by decide)
  refine ⟨h, (C19_getFirstDefinitionForLinker_null_iff exampleAvailable).1.mpr ?_⟩
  intro S hS
  simp only [exampleAvailable, List.mem_cons, List.mem_singleton, List.not_mem_nil,
    or_false] at hS
  rcases hS with rfl | rfl <;> decide

theorem AssocMap.find_none_not_mem {κ α : Type} [DecidableEq κ] (m : AssocMap κ α) (k : κ)
    (h : AssocMap.find m k = none) (v : α) : (k, v) ∉ m := by
  induction m with
  | nil => simp
  | cons e rest ih =>
    obtain ⟨k1, v1⟩ := e
    by_cases hk : k1 = k
    · simp [AssocMap.find, hk] at h
    · simp only [AssocMap.find, hk, if_false] at h
      intro hmem
      rcases List.mem_cons.mp hmem with e | e
      · exact hk (Prod.mk.inj e).1.symm
      · exact ih h e

theorem AssocMap.find_of_mem_nodup {κ α : Type} [DecidableEq κ] (m : AssocMap κ α)
    (hkeys : (m.map Prod.fst).Nodup) (k : κ) (v : α) (hmem : (k, v) ∈ m) :
    AssocMap.find m k = some v := by
  induction m with
  | nil => cases hmem
  | cons e rest ih =>
    obtain ⟨k1, v1⟩ := e
    rw [List.map_cons, List.nodup_cons] at hkeys
    rcases List.mem_cons.mp hmem with e | e
    · obtain ⟨rfl, rfl⟩ := Prod.mk.inj e
      simp [AssocMap.find]
    · have hne : k1 ≠ k := by
        intro hk
        apply hkeys.1
        rw [hk]
        exact List.mem_map.mpr ⟨(k, v), e, rfl⟩
      simp only [AssocMap.find, hne, if_false]
      exact ih hkeys.2 e

theorem prevailingCopy_fold_none (entries : AssocMap GUID GlobalValueSummaryList)
    (pc : AssocMap GUID (Option GlobalValueSummary)) (G : GUID)
    (hpc : AssocMap.find pc G = none)
    (h : ∀ e ∈ entries, e.1 = G → ¬ e.2.length > 1) :
    AssocMap.find (entries.foldl
      (fun PrevailingCopy I =>
        if I.2.length > 1 then
          AssocMap.set PrevailingCopy I.1 (getFirstDefinitionForLinker I.2)
        else PrevailingCopy) pc) G = none := by
  induction entries generalizing pc with
  | nil => exact hpc
  | cons I rest ih =>
    rw [List.foldl_cons]
    apply ih
    · split
      · rename_i hlen
        have hne : I.1 ≠ G := fun e => h I (List.mem_cons_self _ _) e hlen
        rw [AssocMap.find_set, if_neg hne]
        exact hpc
      · exact hpc
    · intro e he
      exact h e (List.mem_cons_of_mem _ he)

/-- C20: in an index whose keys are distinct, an identity that is absent, or whose
summary list has one summary (or none), has no entry in `PrevailingCopy`, and
`isPrevailing` is true on it for every summary pointer, whatever the linkage; an
identity has an entry exactly when its summary list has more than one summary, and
only such an identity can have a summary that `isPrevailing` rejects. -/
theorem C20_single_summary_prevails (Index : ModuleSummaryIndex)
    (hkeys : (Index.GlobalValueMap.map Prod.fst).Nodup) (G : GUID) :
    ((Index.findGlobalValueSummaryList G = none ∨
        ∃ L, Index.findGlobalValueSummaryList G = some L ∧ L.length ≤ 1) →
      AssocMap.find (buildPrevailingCopy Index) G = none ∧
      ∀ S, isPrevailing (buildPrevailingCopy Index) G S = true) ∧
    ((AssocMap.find (buildPrevailingCopy Index) G).isSome = true ↔
      ∃ L, Index.findGlobalValueSummaryList G = some L ∧ 1 < L.length) ∧
    (∀ S, isPrevailing (buildPrevailingCopy Index) G S = false →
      ∃ L, Index.findGlobalValueSummaryList G = some L ∧ 1 < L.length) := by
  have hnone : (Index.findGlobalValueSummaryList G = none ∨
      ∃ L, Index.findGlobalValueSummaryList G = some L ∧ L.length ≤ 1) →
      AssocMap.find (buildPrevailingCopy Index) G = none := by
    intro h
    refine prevailingCopy_fold_none Index.GlobalValueMap [] G rfl ?_
    intro e he heG hlen
    obtain ⟨k, L1⟩ := e
    simp only at heG hlen
    subst heG
    rcases h with h | ⟨L, hL, hle⟩
    · exact AssocMap.find_none_not_mem _ _ h L1 he
    · have := AssocMap.find_of_mem_nodup _ hkeys k L1 he
      unfold ModuleSummaryIndex.findGlobalValueSummaryList at hL
      rw [this] at hL
      cases hL
      omega
  have hsome : (AssocMap.find (buildPrevailingCopy Index) G).isSome = true →
      ∃ L, Index.findGlobalValueSummaryList G = some L ∧ 1 < L.length := by
    intro h
    cases hL : Index.findGlobalValueSummaryList G with
    | none =>
      rw [hnone (Or.inl hL)] at h
      cases h
    | some L =>
      by_cases hlen : 1 < L.length
      · exact ⟨L, rfl, hlen⟩
      · rw [hnone (Or.inr ⟨L, hL, by omega⟩)] at h
        cases h
  refine ⟨fun h => ⟨hnone h, fun S => ?_⟩, ⟨hsome, ?_⟩, ?_⟩
  · simp only [isPrevailing, hnone h]
  · rintro ⟨L, hL, hlen⟩
    exact prevailingCopy_fold_isSome Index.GlobalValueMap [] G
      (Or.inr ⟨(G, L), AssocMap.find_some_mem _ _ _ hL, rfl, hlen⟩)
  · intro S hS
    apply hsome
    cases hpc : AssocMap.find (buildPrevailingCopy Index) G with
    | none => simp [isPrevailing, hpc] at hS
    | some P => rfl

/-- Witness of C20: identity 5 has one summary, of available-externally linkage, and
identity 9 has none; `isPrevailing` accepts that summary and any other pointer for
them, while the twice-defined identity 3 has a summary that is rejected. -/
theorem C20_single_summary_prevails_witness :
    (exampleSingle.GlobalValueMap.map Prod.fst).Nodup ∧
    (∀ S, isPrevailing (buildPrevailingCopy exampleSingle) 5 S = true) ∧
    (∀ S, isPrevailing (buildPrevailingCopy exampleSingle) 9 S = true) ∧
    isPrevailing (buildPrevailingCopy exampleSingle) 5
      (some (exampleFunction 105 "m4" LinkageTypes.AvailableExternallyLinkage [])) = true ∧
    isPrevailing (buildPrevailingCopy exampleSingle) 3 exampleBar[1]? = false ∧
    ∃ L, exampleSingle.findGlobalValueSummaryList 3 = some L ∧ 1 < L.length := by
  have h5 := (C20_single_summary_prevails exampleSingle (by decide) 5).1
    (Or.inr ⟨_, rfl, by decide⟩)
  have h9 := (C20_single_summary_prevails exampleSingle (by decide) 9).1 (Or.inl (by decide))
  exact ⟨by decide, h5.2, h9.2, h5.2 _, by decide,
    (C20_single_summary_prevails exampleSingle (by decide) 3).2.2 exampleBar[1]? (by decide)⟩

end PassWrapper
